import Mathlib

/-!
Verification of the GRZ metadata DTO schema and its JSON codec.

The embedding mirrors `src/metadata.rs` (record and enum declarations with
their serde attributes) and `src/lib.rs` (`Metadata::from_str`).  JSON
documents are modelled as structured values (`Json`); objects are ordered
association lists, which models `serde_json`'s map layer together with the
field order the derived `Serialize` implementations emit (Rust struct
declaration order).  `f64` payloads are modelled as `Rat` (the codec only
carries them; it never computes with them), `i64` as `Int`, and
`HashMap<String, Option<Value>>` as an association list whose keys are
unique in any state reachable from a real `HashMap`.

Decoding follows the semantics of the derived `Deserialize` impls:
`deny_unknown_fields` rejects any key outside the declared field set,
duplicate keys are rejected, required fields must be present with the right
shape, `Option` fields treat a missing key and an explicit `null` both as
`None`, and unit enums are decoded from their exact wire strings.
-/

namespace GRZ

/-- Structured JSON values (the `serde_json::Value` data model). -/
inductive Json where
  | null : Json
  | bool : Bool → Json
  | num : Rat → Json
  | str : String → Json
  | arr : List Json → Json
  | obj : List (String × Json) → Json

/-- A rational with denominator 1, the image of an `i64` in the number model. -/
def intRat (n : Int) : Rat := ⟨n, 1, Nat.one_ne_zero, Nat.coprime_one_right _⟩

/-- First value bound to key `k` in an object's field list. -/
def findField (k : String) : List (String × Json) → Option Json
  | [] => none
  | (k', v) :: rest => if k = k' then some v else findField k rest

/-- Membership test on key lists. -/
def memStr (k : String) : List String → Bool
  | [] => false
  | k' :: rest => if k = k' then true else memStr k rest

/-- `true` iff the key list has no duplicates (serde rejects duplicate fields). -/
def dupFree : List String → Bool
  | [] => true
  | k :: rest => if memStr k rest then false else dupFree rest

/-- `true` iff every key is among the allowed ones (`deny_unknown_fields`). -/
def keysIn : List String → List String → Bool
  | [], _ => true
  | k :: rest, allowed => if memStr k allowed then keysIn rest allowed else false

/-- Closed-world check the derived deserializers perform on an object:
no duplicate field, no field outside the declared set. -/
def checkFields (fs : List (String × Json)) (allowed : List String) : Except String Unit :=
  if dupFree (fs.map Prod.fst) then
    if keysIn (fs.map Prod.fst) allowed then .ok () else .error "unknown field"
  else .error "duplicate field"

/-- Decode a required field: absent means failure. -/
def reqField (fs : List (String × Json)) (k : String)
    (dec : Json → Except String α) : Except String α :=
  match findField k fs with
  | some v => dec v
  | none => .error ("missing field " ++ k)

/-- `Option<T>` deserialization: `null` is `None`, anything else is `Some`. -/
def decodeOptVal (dec : Json → Except String α) : Json → Except String (Option α)
  | .null => .ok none
  | .bool b => (fun a => some a) <$> dec (.bool b)
  | .num q => (fun a => some a) <$> dec (.num q)
  | .str s => (fun a => some a) <$> dec (.str s)
  | .arr xs => (fun a => some a) <$> dec (.arr xs)
  | .obj fs => (fun a => some a) <$> dec (.obj fs)

/-- Decode an optional field: a missing key yields `none`. -/
def optField (fs : List (String × Json)) (k : String)
    (dec : Json → Except String α) : Except String (Option α) :=
  match findField k fs with
  | some v => decodeOptVal dec v
  | none => .ok none

/-- String scalar. -/
def decodeString : Json → Except String String
  | .str s => .ok s
  | _ => .error "expected string"

/-- Boolean scalar. -/
def decodeBool : Json → Except String Bool
  | .bool b => .ok b
  | _ => .error "expected boolean"

/-- An `f64` value as the codec observes it: a finite value (carried, never
computed with) or one of the non-finite states `NaN`, `inf`, `-inf`, which
`serde_json` serializes as `null`.  A finite double is a dyadic rational, so
its denominator divides a power of ten. -/
inductive F64 where
  | finite (q : Rat) : F64
  | nan : F64
  | inf : F64
  | negInf : F64
deriving DecidableEq

/-- `true` iff the value is finite (hence, as every finite double is,
decimal-representable: the model states this as `q.den ∣ 10 ^ q.den`). -/
def F64.fin : F64 → Bool
  | .finite q => 10 ^ q.den % q.den == 0
  | _ => false

/-- `f64` scalar: a JSON number; `null` (the image of a non-finite float) or
any other shape fails. -/
def decodeF64 : Json → Except String F64
  | .num q => .ok (.finite q)
  | _ => .error "expected number"

/-- Encode an `f64`: finite values as numbers, non-finite ones as `null`
(serde_json serializes NaN and the infinities as null). -/
def encodeF64 : F64 → Json
  | .finite q => .num q
  | .nan => .null
  | .inf => .null
  | .negInf => .null

/-- `i64` scalar: the JSON number must be an integer. -/
def decodeI64 : Json → Except String Int
  | .num q => if q.den = 1 then .ok q.num else .error "expected integer"
  | _ => .error "expected integer"

/-- Encode an `i64` as a JSON integer. -/
def encodeI64 (n : Int) : Json := .num (intRat n)

/-- Decode a sequence element-wise. -/
def mapDecode (dec : Json → Except String α) : List Json → Except String (List α)
  | [] => .ok []
  | j :: rest => do
      let a ← dec j
      let as ← mapDecode dec rest
      pure (a :: as)

/-- `Vec<T>` deserialization. -/
def decodeList (dec : Json → Except String α) : Json → Except String (List α)
  | .arr xs => mapDecode dec xs
  | _ => .error "expected array"

/-- Unit-enum deserialization from the exact wire string. -/
def decodeEnum (fromWire : String → Option α) : Json → Except String α
  | .str s =>
      match fromWire s with
      | some v => .ok v
      | none => .error ("unknown enum variant " ++ s)
  | _ => .error "expected string"

/-- Unit-enum serialization to the exact wire string. -/
def encodeEnum (toWire : α → String) (v : α) : Json := .str (toWire v)

/-- A field that is emitted only when present (`skip_serializing_if = "Option::is_none"`). -/
def optPair (k : String) (v : Option Json) : List (String × Json) :=
  match v with
  | some j => [(k, j)]
  | none => []

/-- Gender of the donor (`rename_all = "snake_case"`). -/
inductive Gender where
  | Female | Male | Other | Unknown
deriving DecidableEq

def Gender.toWire : Gender → String
  | .Female => "female"
  | .Male => "male"
  | .Other => "other"
  | .Unknown => "unknown"

def Gender.fromWire (s : String) : Option Gender :=
  if s = "female" then some .Female
  else if s = "male" then some .Male
  else if s = "other" then some .Other
  else if s = "unknown" then some .Unknown
  else none

/-- Manufacturer of the enrichment kit (default external spelling, with
explicit renames `NEB`, `none`, `other`, `unknown`). -/
inductive EnrichmentKitManufacturer where
  | Agilent | Illumina | Neb | None | Other | Twist | Unknown
deriving DecidableEq

def EnrichmentKitManufacturer.toWire : EnrichmentKitManufacturer → String
  | .Agilent => "Agilent"
  | .Illumina => "Illumina"
  | .Neb => "NEB"
  | .None => "none"
  | .Other => "other"
  | .Twist => "Twist"
  | .Unknown => "unknown"

def EnrichmentKitManufacturer.fromWire (s : String) : Option EnrichmentKitManufacturer :=
  if s = "Agilent" then some .Agilent
  else if s = "Illumina" then some .Illumina
  else if s = "NEB" then some .Neb
  else if s = "none" then some .None
  else if s = "other" then some .Other
  else if s = "Twist" then some .Twist
  else if s = "unknown" then some .Unknown
  else none

/-- Fragmentation method (`snake_case`). -/
inductive FragmentationMethod where
  | Enzymatic | None | Other | Sonication | Unknown
deriving DecidableEq

def FragmentationMethod.toWire : FragmentationMethod → String
  | .Enzymatic => "enzymatic"
  | .None => "none"
  | .Other => "other"
  | .Sonication => "sonication"
  | .Unknown => "unknown"

def FragmentationMethod.fromWire (s : String) : Option FragmentationMethod :=
  if s = "enzymatic" then some .Enzymatic
  else if s = "none" then some .None
  else if s = "other" then some .Other
  else if s = "sonication" then some .Sonication
  else if s = "unknown" then some .Unknown
  else none

/-- Library type (`snake_case`, explicit renames for the `_lr` variants). -/
inductive LibraryType where
  | Other | Panel | PanelLr | Unknown | Wes | WesLr | Wgs | WgsLr | Wxs | WxsLr
deriving DecidableEq

def LibraryType.toWire : LibraryType → String
  | .Other => "other"
  | .Panel => "panel"
  | .PanelLr => "panel_lr"
  | .Unknown => "unknown"
  | .Wes => "wes"
  | .WesLr => "wes_lr"
  | .Wgs => "wgs"
  | .WgsLr => "wgs_lr"
  | .Wxs => "wxs"
  | .WxsLr => "wxs_lr"

def LibraryType.fromWire (s : String) : Option LibraryType :=
  if s = "other" then some .Other
  else if s = "panel" then some .Panel
  else if s = "panel_lr" then some .PanelLr
  else if s = "unknown" then some .Unknown
  else if s = "wes" then some .Wes
  else if s = "wes_lr" then some .WesLr
  else if s = "wgs" then some .Wgs
  else if s = "wgs_lr" then some .WgsLr
  else if s = "wxs" then some .Wxs
  else if s = "wxs_lr" then some .WxsLr
  else none

/-- Sample conservation (`kebab-case`, explicit renames on the compound names). -/
inductive SampleConservation where
  | CryoFrozen | Ffpe | FreshTissue | Other | Unknown
deriving DecidableEq

def SampleConservation.toWire : SampleConservation → String
  | .CryoFrozen => "cryo-frozen"
  | .Ffpe => "ffpe"
  | .FreshTissue => "fresh-tissue"
  | .Other => "other"
  | .Unknown => "unknown"

def SampleConservation.fromWire (s : String) : Option SampleConservation :=
  if s = "cryo-frozen" then some .CryoFrozen
  else if s = "ffpe" then some .Ffpe
  else if s = "fresh-tissue" then some .FreshTissue
  else if s = "other" then some .Other
  else if s = "unknown" then some .Unknown
  else none

/-- Type of checksum algorithm used (`snake_case`). -/
inductive ChecksumType where
  | Sha256
deriving DecidableEq

def ChecksumType.toWire : ChecksumType → String
  | .Sha256 => "sha256"

def ChecksumType.fromWire (s : String) : Option ChecksumType :=
  if s = "sha256" then some .Sha256 else none

/-- Type of the file (`snake_case`). -/
inductive FileType where
  | Bam | Bed | Fastq | Vcf
deriving DecidableEq

def FileType.toWire : FileType → String
  | .Bam => "bam"
  | .Bed => "bed"
  | .Fastq => "fastq"
  | .Vcf => "vcf"

def FileType.fromWire (s : String) : Option FileType :=
  if s = "bam" then some .Bam
  else if s = "bed" then some .Bed
  else if s = "fastq" then some .Fastq
  else if s = "vcf" then some .Vcf
  else none

/-- Read order for paired-end reads (no `rename_all`: variant names verbatim). -/
inductive ReadOrder where
  | R1 | R2
deriving DecidableEq

def ReadOrder.toWire : ReadOrder → String
  | .R1 => "R1"
  | .R2 => "R2"

def ReadOrder.fromWire (s : String) : Option ReadOrder :=
  if s = "R1" then some .R1
  else if s = "R2" then some .R2
  else none

/-- Reference genome (explicit renames `GRCh37`, `GRCh38`). -/
inductive ReferenceGenome where
  | GrCh37 | GrCh38
deriving DecidableEq

def ReferenceGenome.toWire : ReferenceGenome → String
  | .GrCh37 => "GRCh37"
  | .GrCh38 => "GRCh38"

def ReferenceGenome.fromWire (s : String) : Option ReferenceGenome :=
  if s = "GRCh37" then some .GrCh37
  else if s = "GRCh38" then some .GrCh38
  else none

/-- Subtype of sequence (`snake_case`). -/
inductive SequenceSubtype where
  | Germline | Other | Somatic | Unknown
deriving DecidableEq

def SequenceSubtype.toWire : SequenceSubtype → String
  | .Germline => "germline"
  | .Other => "other"
  | .Somatic => "somatic"
  | .Unknown => "unknown"

def SequenceSubtype.fromWire (s : String) : Option SequenceSubtype :=
  if s = "germline" then some .Germline
  else if s = "other" then some .Other
  else if s = "somatic" then some .Somatic
  else if s = "unknown" then some .Unknown
  else none

/-- Type of sequence (`snake_case`). -/
inductive SequenceType where
  | Dna | Rna
deriving DecidableEq

def SequenceType.toWire : SequenceType → String
  | .Dna => "dna"
  | .Rna => "rna"

def SequenceType.fromWire (s : String) : Option SequenceType :=
  if s = "dna" then some .Dna
  else if s = "rna" then some .Rna
  else none

/-- Sequencing layout (`kebab-case`, explicit renames on the compound names). -/
inductive SequencingLayout where
  | Other | PairedEnd | Reverse | SingleEnd
deriving DecidableEq

def SequencingLayout.toWire : SequencingLayout → String
  | .Other => "other"
  | .PairedEnd => "paired-end"
  | .Reverse => "reverse"
  | .SingleEnd => "single-end"

def SequencingLayout.fromWire (s : String) : Option SequencingLayout :=
  if s = "other" then some .Other
  else if s = "paired-end" then some .PairedEnd
  else if s = "reverse" then some .Reverse
  else if s = "single-end" then some .SingleEnd
  else none

/-- Method used to determine cell count (`snake_case`). -/
inductive Method where
  | Bioinformatics | Other | Pathology | Unknown
deriving DecidableEq

def Method.toWire : Method → String
  | .Bioinformatics => "bioinformatics"
  | .Other => "other"
  | .Pathology => "pathology"
  | .Unknown => "unknown"

def Method.fromWire (s : String) : Option Method :=
  if s = "bioinformatics" then some .Bioinformatics
  else if s = "other" then some .Other
  else if s = "pathology" then some .Pathology
  else if s = "unknown" then some .Unknown
  else none

/-- Scope of consent or revocation (explicit camelCase renames). -/
inductive Domain where
  | CaseIdentification | MvSequencing | ReIdentification
deriving DecidableEq

def Domain.toWire : Domain → String
  | .CaseIdentification => "caseIdentification"
  | .MvSequencing => "mvSequencing"
  | .ReIdentification => "reIdentification"

def Domain.fromWire (s : String) : Option Domain :=
  if s = "caseIdentification" then some .CaseIdentification
  else if s = "mvSequencing" then some .MvSequencing
  else if s = "reIdentification" then some .ReIdentification
  else none

/-- Consent or refusal (`Type` in the source, `snake_case`). -/
inductive Type' where
  | Deny | Permit
deriving DecidableEq

def Type'.toWire : Type' → String
  | .Deny => "deny"
  | .Permit => "permit"

def Type'.fromWire (s : String) : Option Type' :=
  if s = "deny" then some .Deny
  else if s = "permit" then some .Permit
  else none

/-- Relationship of the donor to the index patient (`snake_case`). -/
inductive Relation where
  | Brother | Child | Father | Index | Mother | Other | Sister
deriving DecidableEq

def Relation.toWire : Relation → String
  | .Brother => "brother"
  | .Child => "child"
  | .Father => "father"
  | .Index => "index"
  | .Mother => "mother"
  | .Other => "other"
  | .Sister => "sister"

def Relation.fromWire (s : String) : Option Relation :=
  if s = "brother" then some .Brother
  else if s = "child" then some .Child
  else if s = "father" then some .Father
  else if s = "index" then some .Index
  else if s = "mother" then some .Mother
  else if s = "other" then some .Other
  else if s = "sister" then some .Sister
  else none

/-- Justification if no scope object is present (full-sentence renames). -/
inductive NoScopeJustification where
  | TechnicalReason | OrganizationalIssues | OtherPatientRelatedReason
  | PatientDidNotReturnConsentDocuments | PatientRefusesToSignConsent
  | PatientUnableToConsent
deriving DecidableEq

def NoScopeJustification.toWire : NoScopeJustification → String
  | .TechnicalReason => "consent information cannot be submitted by LE due to technical reason"
  | .OrganizationalIssues => "consent is not implemented at LE due to organizational issues"
  | .OtherPatientRelatedReason => "other patient-related reason"
  | .PatientDidNotReturnConsentDocuments => "patient did not return consent documents"
  | .PatientRefusesToSignConsent => "patient refuses to sign consent"
  | .PatientUnableToConsent => "patient unable to consent"

def NoScopeJustification.fromWire (s : String) : Option NoScopeJustification :=
  if s = "consent information cannot be submitted by LE due to technical reason" then
    some .TechnicalReason
  else if s = "consent is not implemented at LE due to organizational issues" then
    some .OrganizationalIssues
  else if s = "other patient-related reason" then some .OtherPatientRelatedReason
  else if s = "patient did not return consent documents" then
    some .PatientDidNotReturnConsentDocuments
  else if s = "patient refuses to sign consent" then some .PatientRefusesToSignConsent
  else if s = "patient unable to consent" then some .PatientUnableToConsent
  else none

/-- Schema version of the research consent (single renamed variant). -/
inductive SchemaVersion where
  | Version202501
deriving DecidableEq

def SchemaVersion.toWire : SchemaVersion → String
  | .Version202501 => "2025.0.1"

def SchemaVersion.fromWire (s : String) : Option SchemaVersion :=
  if s = "2025.0.1" then some .Version202501 else none

/-- Coverage type (explicit uppercase renames). -/
inductive CoverageType where
  | Bei | Bg | Gkv | Gpv | Pkv | Ppv | Sel | Skt | Soz | Unk
deriving DecidableEq

def CoverageType.toWire : CoverageType → String
  | .Bei => "BEI"
  | .Bg => "BG"
  | .Gkv => "GKV"
  | .Gpv => "GPV"
  | .Pkv => "PKV"
  | .Ppv => "PPV"
  | .Sel => "SEL"
  | .Skt => "SKT"
  | .Soz => "SOZ"
  | .Unk => "UNK"

def CoverageType.fromWire (s : String) : Option CoverageType :=
  if s = "BEI" then some .Bei
  else if s = "BG" then some .Bg
  else if s = "GKV" then some .Gkv
  else if s = "GPV" then some .Gpv
  else if s = "PKV" then some .Pkv
  else if s = "PPV" then some .Ppv
  else if s = "SEL" then some .Sel
  else if s = "SKT" then some .Skt
  else if s = "SOZ" then some .Soz
  else if s = "UNK" then some .Unk
  else none

/-- Type of the disease (`snake_case`). -/
inductive DiseaseType where
  | Hereditary | Oncological | Rare
deriving DecidableEq

def DiseaseType.toWire : DiseaseType → String
  | .Hereditary => "hereditary"
  | .Oncological => "oncological"
  | .Rare => "rare"

def DiseaseType.fromWire (s : String) : Option DiseaseType :=
  if s = "hereditary" then some .Hereditary
  else if s = "oncological" then some .Oncological
  else if s = "rare" then some .Rare
  else none

/-- Genomic study subtype (`kebab-case` with explicit renames). -/
inductive GenomicStudySubtype where
  | GermlineOnly | TumorGermline | TumorOnly
deriving DecidableEq

def GenomicStudySubtype.toWire : GenomicStudySubtype → String
  | .GermlineOnly => "germline-only"
  | .TumorGermline => "tumor+germline"
  | .TumorOnly => "tumor-only"

def GenomicStudySubtype.fromWire (s : String) : Option GenomicStudySubtype :=
  if s = "germline-only" then some .GermlineOnly
  else if s = "tumor+germline" then some .TumorGermline
  else if s = "tumor-only" then some .TumorOnly
  else none

/-- Genomic study type (`snake_case`). -/
inductive GenomicStudyType where
  | Duo | Single | Trio
deriving DecidableEq

def GenomicStudyType.toWire : GenomicStudyType → String
  | .Duo => "duo"
  | .Single => "single"
  | .Trio => "trio"

def GenomicStudyType.fromWire (s : String) : Option GenomicStudyType :=
  if s = "duo" then some .Duo
  else if s = "single" then some .Single
  else if s = "trio" then some .Trio
  else none

/-- Submission type (`snake_case`). -/
inductive SubmissionType where
  | Addition | Correction | Followup | Initial | Test
deriving DecidableEq

def SubmissionType.toWire : SubmissionType → String
  | .Addition => "addition"
  | .Correction => "correction"
  | .Followup => "followup"
  | .Initial => "initial"
  | .Test => "test"

def SubmissionType.fromWire (s : String) : Option SubmissionType :=
  if s = "addition" then some .Addition
  else if s = "correction" then some .Correction
  else if s = "followup" then some .Followup
  else if s = "initial" then some .Initial
  else if s = "test" then some .Test
  else none

/-- Percentage of bases above a quality threshold (`rename_all = "camelCase"`). -/
structure PercentBasesAboveQualityThreshold where
  minimum_quality : F64
  percent : F64

def percentBasesFields : List String := ["minimumQuality", "percent"]

def encodePercentBases (p : PercentBasesAboveQualityThreshold) : Json :=
  .obj [("minimumQuality", encodeF64 p.minimum_quality), ("percent", encodeF64 p.percent)]

def decodePercentBases : Json → Except String PercentBasesAboveQualityThreshold
  | .obj fs => do
      let _ ← checkFields fs percentBasesFields
      let minimum_quality ← reqField fs "minimumQuality" decodeF64
      let percent ← reqField fs "percent" decodeF64
      pure ⟨minimum_quality, percent⟩
  | _ => .error "PercentBasesAboveQualityThreshold: expected object"

/-- Caller used in the pipeline (no `rename_all`: verbatim field names). -/
structure CallerUsed where
  name : String
  version : String

def callerUsedFields : List String := ["name", "version"]

def encodeCallerUsed (c : CallerUsed) : Json :=
  .obj [("name", .str c.name), ("version", .str c.version)]

def decodeCallerUsed : Json → Except String CallerUsed
  | .obj fs => do
      let _ ← checkFields fs callerUsedFields
      let name ← reqField fs "name" decodeString
      let version ← reqField fs "version" decodeString
      pure ⟨name, version⟩
  | _ => .error "CallerUsed: expected object"

/-- One file of the submission manifest (`rename_all = "camelCase"`,
five optional fields with `skip_serializing_if`). -/
structure File where
  checksum_type : Option ChecksumType
  file_checksum : String
  file_path : String
  file_size_in_bytes : F64
  file_type : FileType
  flowcell_id : Option String
  lane_id : Option String
  read_length : Option Int
  read_order : Option ReadOrder

def fileFields : List String :=
  ["checksumType", "fileChecksum", "filePath", "fileSizeInBytes", "fileType",
   "flowcellId", "laneId", "readLength", "readOrder"]

def encodeFile (f : File) : Json :=
  .obj (optPair "checksumType" (f.checksum_type.map (encodeEnum ChecksumType.toWire))
    ++ [("fileChecksum", .str f.file_checksum),
        ("filePath", .str f.file_path),
        ("fileSizeInBytes", encodeF64 f.file_size_in_bytes),
        ("fileType", encodeEnum FileType.toWire f.file_type)]
    ++ optPair "flowcellId" (f.flowcell_id.map Json.str)
    ++ optPair "laneId" (f.lane_id.map Json.str)
    ++ optPair "readLength" (f.read_length.map encodeI64)
    ++ optPair "readOrder" (f.read_order.map (encodeEnum ReadOrder.toWire)))

def decodeFile : Json → Except String File
  | .obj fs => do
      let _ ← checkFields fs fileFields
      let checksum_type ← optField fs "checksumType" (decodeEnum ChecksumType.fromWire)
      let file_checksum ← reqField fs "fileChecksum" decodeString
      let file_path ← reqField fs "filePath" decodeString
      let file_size_in_bytes ← reqField fs "fileSizeInBytes" decodeF64
      let file_type ← reqField fs "fileType" (decodeEnum FileType.fromWire)
      let flowcell_id ← optField fs "flowcellId" decodeString
      let lane_id ← optField fs "laneId" decodeString
      let read_length ← optField fs "readLength" decodeI64
      let read_order ← optField fs "readOrder" (decodeEnum ReadOrder.fromWire)
      pure ⟨checksum_type, file_checksum, file_path, file_size_in_bytes, file_type,
            flowcell_id, lane_id, read_length, read_order⟩
  | _ => .error "File: expected object"

/-- Tissue ontology (no `rename_all`: verbatim field names). -/
structure TissueOntology where
  name : String
  version : String

def tissueOntologyFields : List String := ["name", "version"]

def encodeTissueOntology (t : TissueOntology) : Json :=
  .obj [("name", .str t.name), ("version", .str t.version)]

def decodeTissueOntology : Json → Except String TissueOntology
  | .obj fs => do
      let _ ← checkFields fs tissueOntologyFields
      let name ← reqField fs "name" decodeString
      let version ← reqField fs "version" decodeString
      pure ⟨name, version⟩
  | _ => .error "TissueOntology: expected object"

/-- Tumor cell count and determination method (no `rename_all`). -/
structure TumorCellCount where
  count : F64
  method : Method

def tumorCellCountFields : List String := ["count", "method"]

def encodeTumorCellCount (t : TumorCellCount) : Json :=
  .obj [("count", encodeF64 t.count), ("method", encodeEnum Method.toWire t.method)]

def decodeTumorCellCount : Json → Except String TumorCellCount
  | .obj fs => do
      let _ ← checkFields fs tumorCellCountFields
      let count ← reqField fs "count" decodeF64
      let method ← reqField fs "method" (decodeEnum Method.fromWire)
      pure ⟨count, method⟩
  | _ => .error "TumorCellCount: expected object"

/-- Sequence data of a wet-lab experiment (`rename_all = "camelCase"`). -/
structure SequenceData where
  bioinformatics_pipeline_name : String
  bioinformatics_pipeline_version : String
  caller_used : List CallerUsed
  files : List File
  mean_depth_of_coverage : F64
  min_coverage : F64
  non_coding_variants : Bool
  percent_bases_above_quality_threshold : PercentBasesAboveQualityThreshold
  reference_genome : ReferenceGenome
  targeted_regions_above_min_coverage : F64

def sequenceDataFields : List String :=
  ["bioinformaticsPipelineName", "bioinformaticsPipelineVersion", "callerUsed", "files",
   "meanDepthOfCoverage", "minCoverage", "nonCodingVariants",
   "percentBasesAboveQualityThreshold", "referenceGenome",
   "targetedRegionsAboveMinCoverage"]

def encodeSequenceData (s : SequenceData) : Json :=
  .obj [("bioinformaticsPipelineName", .str s.bioinformatics_pipeline_name),
        ("bioinformaticsPipelineVersion", .str s.bioinformatics_pipeline_version),
        ("callerUsed", .arr (s.caller_used.map encodeCallerUsed)),
        ("files", .arr (s.files.map encodeFile)),
        ("meanDepthOfCoverage", encodeF64 s.mean_depth_of_coverage),
        ("minCoverage", encodeF64 s.min_coverage),
        ("nonCodingVariants", .bool s.non_coding_variants),
        ("percentBasesAboveQualityThreshold",
          encodePercentBases s.percent_bases_above_quality_threshold),
        ("referenceGenome", encodeEnum ReferenceGenome.toWire s.reference_genome),
        ("targetedRegionsAboveMinCoverage", encodeF64 s.targeted_regions_above_min_coverage)]

def decodeSequenceData : Json → Except String SequenceData
  | .obj fs => do
      let _ ← checkFields fs sequenceDataFields
      let bioinformatics_pipeline_name ← reqField fs "bioinformaticsPipelineName" decodeString
      let bioinformatics_pipeline_version ←
        reqField fs "bioinformaticsPipelineVersion" decodeString
      let caller_used ← reqField fs "callerUsed" (decodeList decodeCallerUsed)
      let files ← reqField fs "files" (decodeList decodeFile)
      let mean_depth_of_coverage ← reqField fs "meanDepthOfCoverage" decodeF64
      let min_coverage ← reqField fs "minCoverage" decodeF64
      let non_coding_variants ← reqField fs "nonCodingVariants" decodeBool
      let percent_bases_above_quality_threshold ←
        reqField fs "percentBasesAboveQualityThreshold" decodePercentBases
      let reference_genome ← reqField fs "referenceGenome" (decodeEnum ReferenceGenome.fromWire)
      let targeted_regions_above_min_coverage ←
        reqField fs "targetedRegionsAboveMinCoverage" decodeF64
      pure ⟨bioinformatics_pipeline_name, bioinformatics_pipeline_version, caller_used,
            files, mean_depth_of_coverage, min_coverage, non_coding_variants,
            percent_bases_above_quality_threshold, reference_genome,
            targeted_regions_above_min_coverage⟩
  | _ => .error "SequenceData: expected object"

/-- One wet-lab dataset (`rename_all = "camelCase"`, two optional fields). -/
structure LabDatum where
  barcode : String
  enrichment_kit_description : String
  enrichment_kit_manufacturer : EnrichmentKitManufacturer
  fragmentation_method : FragmentationMethod
  kit_manufacturer : String
  kit_name : String
  lab_data_name : String
  library_prep_kit : String
  library_prep_kit_manufacturer : String
  library_type : LibraryType
  sample_conservation : SampleConservation
  sample_date : String
  sequence_data : Option SequenceData
  sequence_subtype : SequenceSubtype
  sequence_type : SequenceType
  sequencer_manufacturer : String
  sequencer_model : String
  sequencing_layout : SequencingLayout
  tissue_ontology : TissueOntology
  tissue_type_id : String
  tissue_type_name : String
  tumor_cell_count : Option (List TumorCellCount)

def labDatumFields : List String :=
  ["barcode", "enrichmentKitDescription", "enrichmentKitManufacturer",
   "fragmentationMethod", "kitManufacturer", "kitName", "labDataName",
   "libraryPrepKit", "libraryPrepKitManufacturer", "libraryType",
   "sampleConservation", "sampleDate", "sequenceData", "sequenceSubtype",
   "sequenceType", "sequencerManufacturer", "sequencerModel", "sequencingLayout",
   "tissueOntology", "tissueTypeId", "tissueTypeName", "tumorCellCount"]

def encodeLabDatum (l : LabDatum) : Json :=
  .obj ([("barcode", .str l.barcode),
         ("enrichmentKitDescription", .str l.enrichment_kit_description),
         ("enrichmentKitManufacturer",
           encodeEnum EnrichmentKitManufacturer.toWire l.enrichment_kit_manufacturer),
         ("fragmentationMethod",
           encodeEnum FragmentationMethod.toWire l.fragmentation_method),
         ("kitManufacturer", .str l.kit_manufacturer),
         ("kitName", .str l.kit_name),
         ("labDataName", .str l.lab_data_name),
         ("libraryPrepKit", .str l.library_prep_kit),
         ("libraryPrepKitManufacturer", .str l.library_prep_kit_manufacturer),
         ("libraryType", encodeEnum LibraryType.toWire l.library_type),
         ("sampleConservation", encodeEnum SampleConservation.toWire l.sample_conservation),
         ("sampleDate", .str l.sample_date)]
    ++ optPair "sequenceData" (l.sequence_data.map encodeSequenceData)
    ++ [("sequenceSubtype", encodeEnum SequenceSubtype.toWire l.sequence_subtype),
        ("sequenceType", encodeEnum SequenceType.toWire l.sequence_type),
        ("sequencerManufacturer", .str l.sequencer_manufacturer),
        ("sequencerModel", .str l.sequencer_model),
        ("sequencingLayout", encodeEnum SequencingLayout.toWire l.sequencing_layout),
        ("tissueOntology", encodeTissueOntology l.tissue_ontology),
        ("tissueTypeId", .str l.tissue_type_id),
        ("tissueTypeName", .str l.tissue_type_name)]
    ++ optPair "tumorCellCount"
        (l.tumor_cell_count.map fun ts => .arr (ts.map encodeTumorCellCount)))

def decodeLabDatum : Json → Except String LabDatum
  | .obj fs => do
      let _ ← checkFields fs labDatumFields
      let barcode ← reqField fs "barcode" decodeString
      let enrichment_kit_description ← reqField fs "enrichmentKitDescription" decodeString
      let enrichment_kit_manufacturer ←
        reqField fs "enrichmentKitManufacturer" (decodeEnum EnrichmentKitManufacturer.fromWire)
      let fragmentation_method ←
        reqField fs "fragmentationMethod" (decodeEnum FragmentationMethod.fromWire)
      let kit_manufacturer ← reqField fs "kitManufacturer" decodeString
      let kit_name ← reqField fs "kitName" decodeString
      let lab_data_name ← reqField fs "labDataName" decodeString
      let library_prep_kit ← reqField fs "libraryPrepKit" decodeString
      let library_prep_kit_manufacturer ←
        reqField fs "libraryPrepKitManufacturer" decodeString
      let library_type ← reqField fs "libraryType" (decodeEnum LibraryType.fromWire)
      let sample_conservation ←
        reqField fs "sampleConservation" (decodeEnum SampleConservation.fromWire)
      let sample_date ← reqField fs "sampleDate" decodeString
      let sequence_data ← optField fs "sequenceData" decodeSequenceData
      let sequence_subtype ←
        reqField fs "sequenceSubtype" (decodeEnum SequenceSubtype.fromWire)
      let sequence_type ← reqField fs "sequenceType" (decodeEnum SequenceType.fromWire)
      let sequencer_manufacturer ← reqField fs "sequencerManufacturer" decodeString
      let sequencer_model ← reqField fs "sequencerModel" decodeString
      let sequencing_layout ←
        reqField fs "sequencingLayout" (decodeEnum SequencingLayout.fromWire)
      let tissue_ontology ← reqField fs "tissueOntology" decodeTissueOntology
      let tissue_type_id ← reqField fs "tissueTypeId" decodeString
      let tissue_type_name ← reqField fs "tissueTypeName" decodeString
      let tumor_cell_count ← optField fs "tumorCellCount" (decodeList decodeTumorCellCount)
      pure ⟨barcode, enrichment_kit_description, enrichment_kit_manufacturer,
            fragmentation_method, kit_manufacturer, kit_name, lab_data_name,
            library_prep_kit, library_prep_kit_manufacturer, library_type,
            sample_conservation, sample_date, sequence_data, sequence_subtype,
            sequence_type, sequencer_manufacturer, sequencer_model, sequencing_layout,
            tissue_ontology, tissue_type_id, tissue_type_name, tumor_cell_count⟩
  | _ => .error "LabDatum: expected object"

/-- One consent scope entry (no `rename_all`, but `scope_type` is renamed to
`type` on the wire). -/
structure Scope where
  date : String
  domain : Domain
  scope_type : Type'

def scopeFields : List String := ["date", "domain", "type"]

def encodeScope (s : Scope) : Json :=
  .obj [("date", .str s.date),
        ("domain", encodeEnum Domain.toWire s.domain),
        ("type", encodeEnum Type'.toWire s.scope_type)]

def decodeScope : Json → Except String Scope
  | .obj fs => do
      let _ ← checkFields fs scopeFields
      let date ← reqField fs "date" decodeString
      let domain ← reqField fs "domain" (decodeEnum Domain.fromWire)
      let scope_type ← reqField fs "type" (decodeEnum Type'.fromWire)
      pure ⟨date, domain, scope_type⟩
  | _ => .error "Scope: expected object"

/-- Consent to the model project (`rename_all = "camelCase"`, one optional field). -/
structure MvConsent where
  presentation_date : Option String
  scope : List Scope
  version : String

def mvConsentFields : List String := ["presentationDate", "scope", "version"]

def encodeMvConsent (m : MvConsent) : Json :=
  .obj (optPair "presentationDate" (m.presentation_date.map Json.str)
    ++ [("scope", .arr (m.scope.map encodeScope)),
        ("version", .str m.version)])

def decodeMvConsent : Json → Except String MvConsent
  | .obj fs => do
      let _ ← checkFields fs mvConsentFields
      let presentation_date ← optField fs "presentationDate" decodeString
      let scope ← reqField fs "scope" (decodeList decodeScope)
      let version ← reqField fs "version" decodeString
      pure ⟨presentation_date, scope, version⟩
  | _ => .error "MvConsent: expected object"

/-- Value of an entry of the open `ResearchConsent.scope` mapping:
`Option<serde_json::Value>`, so `null` is `None` and anything else `Some`. -/
def decodeScopeVal : Json → Option Json
  | .null => none
  | .bool b => some (.bool b)
  | .num q => some (.num q)
  | .str s => some (.str s)
  | .arr xs => some (.arr xs)
  | .obj fs => some (.obj fs)

def encodeScopeVal : Option Json → Json
  | none => .null
  | some j => j

/-- `HashMap` insertion: a repeated key replaces the earlier binding (Rust's
map deserialization keeps the last binding without error). -/
def insertKV (acc : List (String × Option Json)) (k : String) (v : Option Json) :
    List (String × Option Json) :=
  if memStr k (acc.map Prod.fst) then
    acc.map fun p => if p.1 = k then (k, v) else p
  else acc ++ [(k, v)]

/-- The open mapping `HashMap<String, Option<Value>>`, modelled as an ordered
association list built by last-wins insertion (a real `HashMap` has pairwise
distinct keys). -/
def decodeScopeMap : Json → Except String (List (String × Option Json))
  | .obj fs => .ok (fs.foldl (fun acc p => insertKV acc p.1 (decodeScopeVal p.2)) [])
  | _ => .error "scope: expected object"

def encodeScopeMap (m : List (String × Option Json)) : Json :=
  .obj (m.map fun p => (p.1, encodeScopeVal p.2))

/-- Research consent (`rename_all = "camelCase"`, three optional fields). -/
structure ResearchConsent where
  no_scope_justification : Option NoScopeJustification
  presentation_date : String
  schema_version : Option SchemaVersion
  scope : Option (List (String × Option Json))

def researchConsentFields : List String :=
  ["noScopeJustification", "presentationDate", "schemaVersion", "scope"]

def encodeResearchConsent (r : ResearchConsent) : Json :=
  .obj (optPair "noScopeJustification"
        (r.no_scope_justification.map (encodeEnum NoScopeJustification.toWire))
    ++ [("presentationDate", .str r.presentation_date)]
    ++ optPair "schemaVersion" (r.schema_version.map (encodeEnum SchemaVersion.toWire))
    ++ optPair "scope" (r.scope.map encodeScopeMap))

def decodeResearchConsent : Json → Except String ResearchConsent
  | .obj fs => do
      let _ ← checkFields fs researchConsentFields
      let no_scope_justification ←
        optField fs "noScopeJustification" (decodeEnum NoScopeJustification.fromWire)
      let presentation_date ← reqField fs "presentationDate" decodeString
      let schema_version ← optField fs "schemaVersion" (decodeEnum SchemaVersion.fromWire)
      let scope ← optField fs "scope" decodeScopeMap
      pure ⟨no_scope_justification, presentation_date, schema_version, scope⟩
  | _ => .error "ResearchConsent: expected object"

/-- A donor (`rename_all = "camelCase"`, all fields required). -/
structure Donor where
  donor_pseudonym : String
  gender : Gender
  lab_data : List LabDatum
  mv_consent : MvConsent
  relation : Relation
  research_consents : List ResearchConsent

def donorFields : List String :=
  ["donorPseudonym", "gender", "labData", "mvConsent", "relation", "researchConsents"]

def encodeDonor (d : Donor) : Json :=
  .obj [("donorPseudonym", .str d.donor_pseudonym),
        ("gender", encodeEnum Gender.toWire d.gender),
        ("labData", .arr (d.lab_data.map encodeLabDatum)),
        ("mvConsent", encodeMvConsent d.mv_consent),
        ("relation", encodeEnum Relation.toWire d.relation),
        ("researchConsents", .arr (d.research_consents.map encodeResearchConsent))]

def decodeDonor : Json → Except String Donor
  | .obj fs => do
      let _ ← checkFields fs donorFields
      let donor_pseudonym ← reqField fs "donorPseudonym" decodeString
      let gender ← reqField fs "gender" (decodeEnum Gender.fromWire)
      let lab_data ← reqField fs "labData" (decodeList decodeLabDatum)
      let mv_consent ← reqField fs "mvConsent" decodeMvConsent
      let relation ← reqField fs "relation" (decodeEnum Relation.fromWire)
      let research_consents ←
        reqField fs "researchConsents" (decodeList decodeResearchConsent)
      pure ⟨donor_pseudonym, gender, lab_data, mv_consent, relation, research_consents⟩
  | _ => .error "Donor: expected object"

/-- The submission envelope (`rename_all = "camelCase"`, all fields required). -/
structure Submission where
  clinical_data_node_id : String
  coverage_type : CoverageType
  disease_type : DiseaseType
  genomic_data_center_id : String
  genomic_study_subtype : GenomicStudySubtype
  genomic_study_type : GenomicStudyType
  lab_name : String
  local_case_id : String
  submission_date : String
  submission_type : SubmissionType
  submitter_id : String
  tan_g : String

def submissionFields : List String :=
  ["clinicalDataNodeId", "coverageType", "diseaseType", "genomicDataCenterId",
   "genomicStudySubtype", "genomicStudyType", "labName", "localCaseId",
   "submissionDate", "submissionType", "submitterId", "tanG"]

def encodeSubmission (s : Submission) : Json :=
  .obj [("clinicalDataNodeId", .str s.clinical_data_node_id),
        ("coverageType", encodeEnum CoverageType.toWire s.coverage_type),
        ("diseaseType", encodeEnum DiseaseType.toWire s.disease_type),
        ("genomicDataCenterId", .str s.genomic_data_center_id),
        ("genomicStudySubtype", encodeEnum GenomicStudySubtype.toWire s.genomic_study_subtype),
        ("genomicStudyType", encodeEnum GenomicStudyType.toWire s.genomic_study_type),
        ("labName", .str s.lab_name),
        ("localCaseId", .str s.local_case_id),
        ("submissionDate", .str s.submission_date),
        ("submissionType", encodeEnum SubmissionType.toWire s.submission_type),
        ("submitterId", .str s.submitter_id),
        ("tanG", .str s.tan_g)]

def decodeSubmission : Json → Except String Submission
  | .obj fs => do
      let _ ← checkFields fs submissionFields
      let clinical_data_node_id ← reqField fs "clinicalDataNodeId" decodeString
      let coverage_type ← reqField fs "coverageType" (decodeEnum CoverageType.fromWire)
      let disease_type ← reqField fs "diseaseType" (decodeEnum DiseaseType.fromWire)
      let genomic_data_center_id ← reqField fs "genomicDataCenterId" decodeString
      let genomic_study_subtype ←
        reqField fs "genomicStudySubtype" (decodeEnum GenomicStudySubtype.fromWire)
      let genomic_study_type ←
        reqField fs "genomicStudyType" (decodeEnum GenomicStudyType.fromWire)
      let lab_name ← reqField fs "labName" decodeString
      let local_case_id ← reqField fs "localCaseId" decodeString
      let submission_date ← reqField fs "submissionDate" decodeString
      let submission_type ←
        reqField fs "submissionType" (decodeEnum SubmissionType.fromWire)
      let submitter_id ← reqField fs "submitterId" decodeString
      let tan_g ← reqField fs "tanG" decodeString
      pure ⟨clinical_data_node_id, coverage_type, disease_type, genomic_data_center_id,
            genomic_study_subtype, genomic_study_type, lab_name, local_case_id,
            submission_date, submission_type, submitter_id, tan_g⟩
  | _ => .error "Submission: expected object"

/-- The root record (no `rename_all`: verbatim field names). -/
structure Metadata where
  donors : List Donor
  submission : Submission

def metadataFields : List String := ["donors", "submission"]

def encodeMetadata (m : Metadata) : Json :=
  .obj [("donors", .arr (m.donors.map encodeDonor)),
        ("submission", encodeSubmission m.submission)]

def decodeMetadata : Json → Except String Metadata
  | .obj fs => do
      let _ ← checkFields fs metadataFields
      let donors ← reqField fs "donors" (decodeList decodeDonor)
      let submission ← reqField fs "submission" decodeSubmission
      pure ⟨donors, submission⟩
  | _ => .error "Metadata: expected object"

/-- Digit character for a value below ten. -/
def digitChar (d : Nat) : Char := Char.ofNat (48 + d)

/-- Lowercase hex digit character for a value below sixteen. -/
def hexDigitChar (d : Nat) : Char := Char.ofNat (if d < 10 then 48 + d else 87 + d)

/-- Decimal digits of `n`, most significant first, via fuel-bounded recursion
(`n + 1` steps always suffice). -/
def natDigitsF : Nat → Nat → List Char
  | 0, _ => []
  | fuel + 1, n =>
      if n < 10 then [digitChar n]
      else natDigitsF fuel (n / 10) ++ [digitChar (n % 10)]

def natDigits (n : Nat) : List Char := natDigitsF (n + 1) n

/-- The exponent the printer uses for a decimal-representable rational. -/
def decExp (q : Rat) : Nat := q.den

/-- The integer mantissa: `q = decMant q / 10 ^ decExp q` when
`q.den ∣ 10 ^ q.den`. -/
def decMant (q : Rat) : Int := q.num * ((10 ^ q.den) / q.den : Nat)

/-- Modelled from the external `serde_json` text layer: print a (finite,
decimal-representable) number in mantissa-exponent form; the printed spelling
differs from serde_json's shortest rendering but denotes the same value. -/
def printNum (q : Rat) : List Char :=
  (if q.num < 0 then ['-'] else []) ++
    natDigits (decMant q).natAbs ++ 'e' :: '-' :: natDigits (decExp q)

/-- Modelled from the external `serde_json` text layer: escape one character
of a string literal (quote, backslash, and controls below 0x20). -/
def escChar (c : Char) : List Char :=
  if c = '"' then ['\\', '"']
  else if c = '\\' then ['\\', '\\']
  else if c.toNat < 32 then
    ['\\', 'u', '0', '0', hexDigitChar (c.toNat / 16), hexDigitChar (c.toNat % 16)]
  else [c]

def printStringBody : List Char → List Char
  | [] => []
  | c :: cs => escChar c ++ printStringBody cs

/-- A printed object key followed by the colon separator. -/
def printKey (k : String) : List Char :=
  '"' :: (printStringBody k.data ++ ['"', ':'])

mutual

/-- Modelled from the external `serde_json` text layer: the document printer
(`serde_json::to_string`), emitting no insignificant whitespace. -/
def printJson : Json → List Char
  | .null => ['n', 'u', 'l', 'l']
  | .bool b => if b then ['t', 'r', 'u', 'e'] else ['f', 'a', 'l', 's', 'e']
  | .num q => printNum q
  | .str s => '"' :: (printStringBody s.data ++ ['"'])
  | .arr [] => ['[', ']']
  | .arr (x :: xs) => '[' :: (printJson x ++ printItems xs ++ [']'])
  | .obj [] => ['\x7b', '\x7d']
  | .obj (f :: fs) => '\x7b' :: (printKey f.1 ++ printJson f.2 ++ printMembers fs ++ ['\x7d'])

/-- Subsequent array items, each preceded by a comma. -/
def printItems : List Json → List Char
  | [] => []
  | x :: xs => ',' :: (printJson x ++ printItems xs)

/-- Subsequent object members, each preceded by a comma. -/
def printMembers : List (String × Json) → List Char
  | [] => []
  | f :: fs => ',' :: (printKey f.1 ++ printJson f.2 ++ printMembers fs)

end

mutual

/-- `true` iff every number in the value is decimal-representable — true of
every `serde_json` number (i64, u64 or finite f64), so the printer can write
the value back as text. -/
def jsonPrintable : Json → Bool
  | .null => true
  | .bool _ => true
  | .num q => 10 ^ q.den % q.den == 0
  | .str _ => true
  | .arr xs => jsonPrintableList xs
  | .obj fs => jsonPrintableMembers fs

def jsonPrintableList : List Json → Bool
  | [] => true
  | x :: xs => jsonPrintable x && jsonPrintableList xs

def jsonPrintableMembers : List (String × Json) → Bool
  | [] => true
  | f :: fs => jsonPrintable f.2 && jsonPrintableMembers fs

end

mutual

/-- Fuel sufficient for `parseValue` on the printed form of a value. -/
def jneed : Json → Nat
  | .null => 1
  | .bool _ => 1
  | .num _ => 1
  | .str _ => 1
  | .arr xs => 1 + jneedItems xs
  | .obj fs => 1 + jneedMembers fs

def jneedItems : List Json → Nat
  | [] => 1
  | x :: xs => 1 + jneed x + jneedItems xs

def jneedMembers : List (String × Json) → Nat
  | [] => 1
  | f :: fs => 1 + jneed f.2 + jneedMembers fs

end

/-- `true` iff the character list does not begin with a digit (what follows a
printed number in a document). -/
def noDigitB : List Char → Bool
  | [] => true
  | c :: _ => !c.isDigit

/-- Value of a most-significant-first digit string. -/
def valMSB (ds : List Char) : Nat :=
  ds.foldl (fun a c => a * 10 + (c.toNat - 48)) 0

/-- A `HashMap` state is one with pairwise distinct keys; the codec collapses a
value `some Json.null` to `none` on a round trip, so the canonical in-memory form
stores explicit nulls as `none`, and every stored value is one `serde_json`
could hold (its numbers decimal-representable). -/
def scopeValOk : Option Json → Bool
  | none => true
  | some .null => false
  | some j => jsonPrintable j

def scopeMapWf (m : List (String × Option Json)) : Bool :=
  dupFree (m.map Prod.fst) && m.all fun p => scopeValOk p.2

def ResearchConsent.wf (r : ResearchConsent) : Bool :=
  match r.scope with
  | none => true
  | some m => scopeMapWf m

/-- Both quality-threshold floats are finite. -/
def PercentBasesAboveQualityThreshold.wf (p : PercentBasesAboveQualityThreshold) : Bool :=
  F64.fin p.minimum_quality && F64.fin p.percent

/-- The tumor cell count is finite. -/
def TumorCellCount.wf (t : TumorCellCount) : Bool :=
  F64.fin t.count

/-- The file size is finite. -/
def File.wf (f : File) : Bool :=
  F64.fin f.file_size_in_bytes

/-- All coverage floats are finite, recursively. -/
def SequenceData.wf (s : SequenceData) : Bool :=
  F64.fin s.mean_depth_of_coverage && F64.fin s.min_coverage &&
    F64.fin s.targeted_regions_above_min_coverage &&
    s.percent_bases_above_quality_threshold.wf && s.files.all File.wf

/-- All floats below this lab datum are finite. -/
def LabDatum.wf (l : LabDatum) : Bool :=
  (match l.sequence_data with
   | none => true
   | some sd => sd.wf) &&
  (match l.tumor_cell_count with
   | none => true
   | some ts => ts.all TumorCellCount.wf)

def Donor.wf (d : Donor) : Bool :=
  d.lab_data.all LabDatum.wf && d.research_consents.all ResearchConsent.wf

def Metadata.wf (m : Metadata) : Bool :=
  m.donors.all Donor.wf

/-- Modelled from the external `serde_json` text layer used by
`Metadata::from_str` (src/lib.rs): whitespace skipping. -/
def skipWs : List Char → List Char
  | [] => []
  | c :: rest => if c = ' ' ∨ c = '\n' ∨ c = '\t' ∨ c = '\r' then skipWs rest else c :: rest

/-- Hex digit value, if the character is one. -/
def hexVal? (c : Char) : Option Nat :=
  if '0' ≤ c ∧ c ≤ '9' then some (c.toNat - 48)
  else if 'a' ≤ c ∧ c ≤ 'f' then some (c.toNat - 87)
  else if 'A' ≤ c ∧ c ≤ 'F' then some (c.toNat - 55)
  else none

/-- Modelled from the external `serde_json` text layer: string literal body
with the named escapes and `\uXXXX` (surrogate pairs are not modelled; such
inputs decode to the lone code unit). -/
def parseStringChars : List Char → Option (List Char × List Char)
  | [] => none
  | c :: rest =>
      if c = '"' then some ([], rest)
      else if c = '\\' then
        match rest with
        | [] => none
        | e :: rest' =>
            if e = 'u' then
              match rest' with
              | h1 :: h2 :: h3 :: h4 :: rest'' => do
                  let v1 ← hexVal? h1
                  let v2 ← hexVal? h2
                  let v3 ← hexVal? h3
                  let v4 ← hexVal? h4
                  let (s, r) ← parseStringChars rest''
                  some (Char.ofNat (4096 * v1 + 256 * v2 + 16 * v3 + v4) :: s, r)
              | _ => none
            else do
              let esc ←
                if e = '"' then some '"'
                else if e = '\\' then some '\\'
                else if e = '/' then some '/'
                else if e = 'n' then some '\n'
                else if e = 't' then some '\t'
                else if e = 'r' then some '\r'
                else if e = 'b' then some (Char.ofNat 8)
                else if e = 'f' then some (Char.ofNat 12)
                else none
              let (s, r) ← parseStringChars rest'
              some (esc :: s, r)
      else do
        let (s, r) ← parseStringChars rest
        some (c :: s, r)

/-- Modelled from the external `serde_json` text layer: digit run. -/
def parseDigits : List Char → Option (Nat × Nat × List Char) :=
  let rec go (acc : Nat) (cnt : Nat) : List Char → Nat × Nat × List Char
    | [] => (acc, cnt, [])
    | c :: rest =>
        if c.isDigit then go (acc * 10 + (c.toNat - 48)) (cnt + 1) rest
        else (acc, cnt, c :: rest)
  fun cs =>
    match cs with
    | c :: _ => if c.isDigit then some (go 0 0 cs) else none
    | [] => none

/-- Modelled from the external `serde_json` text layer: number literal. -/
def parseNumber (cs : List Char) : Option (Rat × List Char) := do
  let (sgn, cs₁) :=
    if cs.head? = some '-' then ((-1 : Int), cs.tail) else ((1 : Int), cs)
  let (intPart, _, cs₂) ← parseDigits cs₁
  let (mant, fracLen, cs₃) ←
    if cs₂.head? = some '.' then do
      let (fracPart, fracCnt, r) ← parseDigits cs₂.tail
      pure (intPart * 10 ^ fracCnt + fracPart, fracCnt, r)
    else pure (intPart, 0, cs₂)
  let (expVal, cs₄) ←
    if cs₃.head? = some 'e' ∨ cs₃.head? = some 'E' then do
      let (esgn, r) :=
        if cs₃.tail.head? = some '-' then ((-1 : Int), cs₃.tail.tail)
        else if cs₃.tail.head? = some '+' then ((1 : Int), cs₃.tail.tail)
        else ((1 : Int), cs₃.tail)
      let (e, _, r') ← parseDigits r
      pure (esgn * (e : Int), r')
    else pure ((0 : Int), cs₃)
  let base : Rat := mkRat (sgn * mant) (10 ^ fracLen)
  let q : Rat :=
    if 0 ≤ expVal then base * mkRat ((10 : Int) ^ expVal.toNat) 1
    else base * mkRat 1 (10 ^ (-expVal).toNat)
  pure (q, cs₄)

mutual

/-- Modelled from the external `serde_json` text layer: recursive-descent
value parser, with fuel bounding the nesting depth. -/
def parseValue : Nat → List Char → Option (Json × List Char)
  | 0, _ => none
  | fuel + 1, cs =>
      match skipWs cs with
      | [] => none
      | c :: rest =>
          if c = 'n' then
            match rest with
            | 'u' :: 'l' :: 'l' :: r => some (.null, r)
            | _ => none
          else if c = 't' then
            match rest with
            | 'r' :: 'u' :: 'e' :: r => some (.bool true, r)
            | _ => none
          else if c = 'f' then
            match rest with
            | 'a' :: 'l' :: 's' :: 'e' :: r => some (.bool false, r)
            | _ => none
          else if c = '"' then do
            let (s, r) ← parseStringChars rest
            some (.str (String.mk s), r)
          else if c = '[' then
            if (skipWs rest).head? = some ']' then some (.arr [], (skipWs rest).tail)
            else do
              let (xs, r) ← parseItems fuel (skipWs rest)
              some (.arr xs, r)
          else if c = '\x7b' then
            if (skipWs rest).head? = some '\x7d' then some (.obj [], (skipWs rest).tail)
            else do
              let (fs, r) ← parseMembers fuel (skipWs rest)
              some (.obj fs, r)
          else do
            let (q, r) ← parseNumber (c :: rest)
            some (.num q, r)

/-- Array items after the opening bracket (at least one). -/
def parseItems : Nat → List Char → Option (List Json × List Char)
  | 0, _ => none
  | fuel + 1, cs => do
      let (j, r) ← parseValue fuel cs
      let r' := skipWs r
      if r'.head? = some ',' then do
        let (xs, r'') ← parseItems fuel r'.tail
        some (j :: xs, r'')
      else if r'.head? = some ']' then some ([j], r'.tail)
      else none

/-- Object members after the opening brace (at least one). -/
def parseMembers : Nat → List Char → Option (List (String × Json) × List Char)
  | 0, _ => none
  | fuel + 1, cs =>
      match skipWs cs with
      | [] => none
      | c :: rest =>
          if c = '"' then do
            let (k, r) ← parseStringChars rest
            let r₁ := skipWs r
            if r₁.head? = some ':' then do
              let (v, r₂) ← parseValue fuel r₁.tail
              let r₃ := skipWs r₂
              if r₃.head? = some ',' then do
                let (fs, r₄) ← parseMembers fuel r₃.tail
                some ((String.mk k, v) :: fs, r₄)
              else if r₃.head? = some '\x7d' then some ([(String.mk k, v)], r₃.tail)
              else none
            else none
          else none

end

/-- Modelled from the external `serde_json` text layer: a whole document,
rejecting trailing garbage. -/
def parseJsonText (s : String) : Option Json := do
  let (j, rest) ← parseValue (2 * s.length + 4) s.toList
  match skipWs rest with
  | [] => some j
  | _ => none

/-- The error wrapper of src/lib.rs: `SerdeError(String)`. -/
structure SerdeError where
  msg : String

/-- `Metadata::from_str` (src/lib.rs): parse the text, decode the record tree,
wrap any failure in a `SerdeError`. -/
def Metadata.from_str (value : String) : Except SerdeError Metadata :=
  match parseJsonText value with
  | none => .error ⟨"Metadata Serde Error: malformed document"⟩
  | some j =>
      match decodeMetadata j with
      | .ok m => .ok m
      | .error e => .error ⟨"Metadata Serde Error: " ++ e⟩

/-- `serde_json::to_string` applied to the derived `Serialize` impls: encode
the record tree and print it as a textual document. -/
def Metadata.to_json_string (m : Metadata) : String :=
  String.mk (printJson (encodeMetadata m))

/-- `true` iff the decode succeeded. -/
def isOkE : Except String α → Bool
  | .ok _ => true
  | .error _ => false

/-- `true` iff the decode failed (the single `SchemaViolation` outcome). -/
def isErrE : Except String α → Bool
  | .ok _ => false
  | .error _ => true

/-- `true` iff `Metadata::from_str` succeeded. -/
def isOkS : Except SerdeError α → Bool
  | .ok _ => true
  | .error _ => false

/-- Keys of a JSON object (empty for non-objects). -/
def jsonKeys : Json → List String
  | .obj fs => fs.map Prod.fst
  | _ => []

/-- Field lookup on an encoded document. -/
def jsonLookup (j : Json) (k : String) : Option Json :=
  match j with
  | .obj fs => findField k fs
  | _ => none

/-- serde's `rename_all = "snake_case"` rendering: every uppercase letter is
lowercased, and preceded by an underscore unless it starts the identifier. -/
def snakeChars : Bool → List Char → List Char
  | _, [] => []
  | first, c :: rest =>
      if c.isUpper then
        (if first then [c.toLower] else ['_', c.toLower]) ++ snakeChars false rest
      else c :: snakeChars false rest

def snakeCaseRender (s : String) : String := ⟨snakeChars true s.data⟩

/-- serde's `rename_all = "kebab-case"` rendering. -/
def kebabChars : Bool → List Char → List Char
  | _, [] => []
  | first, c :: rest =>
      if c.isUpper then
        (if first then [c.toLower] else ['-', c.toLower]) ++ kebabChars false rest
      else c :: kebabChars false rest

def kebabCaseRender (s : String) : String := ⟨kebabChars true s.data⟩

/-- Uppercase rendering (for comparison with the `CoverageType` spellings). -/
def upperCaseRender (s : String) : String := ⟨s.data.map Char.toUpper⟩

def Gender.symbolicName : Gender → String
  | .Female => "Female"
  | .Male => "Male"
  | .Other => "Other"
  | .Unknown => "Unknown"

def FragmentationMethod.symbolicName : FragmentationMethod → String
  | .Enzymatic => "Enzymatic"
  | .None => "None"
  | .Other => "Other"
  | .Sonication => "Sonication"
  | .Unknown => "Unknown"

def LibraryType.symbolicName : LibraryType → String
  | .Other => "Other"
  | .Panel => "Panel"
  | .PanelLr => "PanelLr"
  | .Unknown => "Unknown"
  | .Wes => "Wes"
  | .WesLr => "WesLr"
  | .Wgs => "Wgs"
  | .WgsLr => "WgsLr"
  | .Wxs => "Wxs"
  | .WxsLr => "WxsLr"

def ChecksumType.symbolicName : ChecksumType → String
  | .Sha256 => "Sha256"

def FileType.symbolicName : FileType → String
  | .Bam => "Bam"
  | .Bed => "Bed"
  | .Fastq => "Fastq"
  | .Vcf => "Vcf"

def ReadOrder.symbolicName : ReadOrder → String
  | .R1 => "R1"
  | .R2 => "R2"

def SequenceSubtype.symbolicName : SequenceSubtype → String
  | .Germline => "Germline"
  | .Other => "Other"
  | .Somatic => "Somatic"
  | .Unknown => "Unknown"

def SequenceType.symbolicName : SequenceType → String
  | .Dna => "Dna"
  | .Rna => "Rna"

def SequencingLayout.symbolicName : SequencingLayout → String
  | .Other => "Other"
  | .PairedEnd => "PairedEnd"
  | .Reverse => "Reverse"
  | .SingleEnd => "SingleEnd"

def Method.symbolicName : Method → String
  | .Bioinformatics => "Bioinformatics"
  | .Other => "Other"
  | .Pathology => "Pathology"
  | .Unknown => "Unknown"

def Type'.symbolicName : Type' → String
  | .Deny => "Deny"
  | .Permit => "Permit"

def Relation.symbolicName : Relation → String
  | .Brother => "Brother"
  | .Child => "Child"
  | .Father => "Father"
  | .Index => "Index"
  | .Mother => "Mother"
  | .Other => "Other"
  | .Sister => "Sister"

def CoverageType.symbolicName : CoverageType → String
  | .Bei => "Bei"
  | .Bg => "Bg"
  | .Gkv => "Gkv"
  | .Gpv => "Gpv"
  | .Pkv => "Pkv"
  | .Ppv => "Ppv"
  | .Sel => "Sel"
  | .Skt => "Skt"
  | .Soz => "Soz"
  | .Unk => "Unk"

def DiseaseType.symbolicName : DiseaseType → String
  | .Hereditary => "Hereditary"
  | .Oncological => "Oncological"
  | .Rare => "Rare"

def GenomicStudyType.symbolicName : GenomicStudyType → String
  | .Duo => "Duo"
  | .Single => "Single"
  | .Trio => "Trio"

def SubmissionType.symbolicName : SubmissionType → String
  | .Addition => "Addition"
  | .Correction => "Correction"
  | .Followup => "Followup"
  | .Initial => "Initial"
  | .Test => "Test"

def exampleSubmission : Submission :=
  ⟨"KDK123456", .Gkv, .Rare, "GRZ987654", .GermlineOnly, .Single, "Example Lab",
   "case-1", "2024-05-01", .Initial, "123456789",
   "deadbeefdeadbeefdeadbeefdeadbeefdeadbeefdeadbeefdeadbeefdeadbeef"⟩

def exampleFile : File :=
  ⟨some .Sha256, "cafebabe", "patient_001/patient_001_dna.fastq.gz", .finite 1024, .Fastq,
   some "FC1", some "L1", some 151, some .R1⟩

def exampleSequenceData : SequenceData :=
  ⟨"pipeline", "1.0", [⟨"mutect2", "4.1"⟩], [exampleFile], .finite 100, .finite 30, true,
   ⟨.finite 30, .finite 90⟩, .GrCh38, .finite 95⟩

def exampleLabDatum : LabDatum :=
  ⟨"na", "kit description", .Illumina, .Sonication, "Illumina", "NovaSeq kit",
   "Blut DNA normal", "prep kit", "NEB", .Wgs, .FreshTissue, "2024-04-01",
   some exampleSequenceData, .Germline, .Dna, "Illumina", "NovaSeq 6000",
   .PairedEnd, ⟨"BTO", "1.0"⟩, "BTO:0000089", "blood", some [⟨.finite 20, .Pathology⟩]⟩

def exampleResearchConsent : ResearchConsent :=
  ⟨none, "2024-01-01", some .Version202501,
   some [("resourceType", some (.str "Consent")), ("status", none)]⟩

def exampleMvConsent : MvConsent :=
  ⟨some "2024-01-01", [⟨"2024-01-01", .MvSequencing, .Permit⟩], "vers01"⟩

def exampleDonor : Donor :=
  ⟨"index", .Female, [exampleLabDatum], exampleMvConsent, .Index, [exampleResearchConsent]⟩

def exampleMetadata : Metadata := ⟨[exampleDonor], exampleSubmission⟩

/-- A record whose open scope mapping stores an explicit null as a present
value (`Some(Value::Null)`), the non-canonical form a `HashMap` can hold. -/
def metadataWrappedNull : Metadata :=
  ⟨[⟨"index", .Female, [], ⟨none, [], "v1"⟩, .Index,
     [⟨none, "2024-01-01", none, some [("status", some Json.null)]⟩]⟩],
   exampleSubmission⟩

/-- The same record with the explicit null in canonical absent-value form. -/
def metadataCollapsedNull : Metadata :=
  ⟨[⟨"index", .Female, [], ⟨none, [], "v1"⟩, .Index,
     [⟨none, "2024-01-01", none, some [("status", none)]⟩]⟩],
   exampleSubmission⟩

/-- A record with a NaN coverage value: a state a Rust `Metadata` can hold,
since `meanDepthOfCoverage` is a plain `f64`. -/
def metadataNaN : Metadata :=
  ⟨[⟨"index", .Female,
     [{ exampleLabDatum with
        sequence_data :=
          some { exampleSequenceData with mean_depth_of_coverage := F64.nan } }],
     exampleMvConsent, .Index, []⟩],
   exampleSubmission⟩

/-- Observer: the first scope value of the first research consent of the
first donor. -/
def firstScopeVal (m : Metadata) : Option (Option Json) :=
  match m.donors with
  | d :: _ =>
      match d.research_consents with
      | rc :: _ =>
          match rc.scope with
          | some ((_, v) :: _) => some v
          | _ => none
      | [] => none
  | [] => none

def submissionDoc : Json :=
  .obj [("clinicalDataNodeId", .str "KDK123456"), ("coverageType", .str "GKV"),
        ("diseaseType", .str "rare"), ("genomicDataCenterId", .str "GRZ987654"),
        ("genomicStudySubtype", .str "germline-only"), ("genomicStudyType", .str "single"),
        ("labName", .str "Example Lab"), ("localCaseId", .str "case-1"),
        ("submissionDate", .str "2024-05-01"), ("submissionType", .str "initial"),
        ("submitterId", .str "123456789"), ("tanG", .str "deadbeef")]

/-- A donor document whose sequence-typed fields are all empty, with no
`mvSequencing` permit anywhere. -/
def emptyArraysDonorDoc : Json :=
  .obj [("donorPseudonym", .str "index"), ("gender", .str "female"),
        ("labData", .arr []),
        ("mvConsent", .obj [("scope", .arr []), ("version", .str "v1")]),
        ("relation", .str "index"), ("researchConsents", .arr [])]

def emptyDonorsDoc : Json := .obj [("donors", .arr []), ("submission", submissionDoc)]

def emptyArraysDoc : Json :=
  .obj [("donors", .arr [emptyArraysDonorDoc]), ("submission", submissionDoc)]

/-- A lab datum document carrying exactly the required fields. -/
def labDatumRequiredOnlyDoc : Json :=
  .obj [("barcode", .str "na"), ("enrichmentKitDescription", .str "kit"),
        ("enrichmentKitManufacturer", .str "Illumina"),
        ("fragmentationMethod", .str "sonication"), ("kitManufacturer", .str "X"),
        ("kitName", .str "Y"), ("labDataName", .str "Blut DNA normal"),
        ("libraryPrepKit", .str "P"), ("libraryPrepKitManufacturer", .str "Q"),
        ("libraryType", .str "wgs"), ("sampleConservation", .str "fresh-tissue"),
        ("sampleDate", .str "2024-04-01"), ("sequenceSubtype", .str "germline"),
        ("sequenceType", .str "dna"), ("sequencerManufacturer", .str "Illumina"),
        ("sequencerModel", .str "NovaSeq"), ("sequencingLayout", .str "paired-end"),
        ("tissueOntology", .obj [("name", .str "BTO"), ("version", .str "1.0")]),
        ("tissueTypeId", .str "BTO:1"), ("tissueTypeName", .str "blood")]

@[simp] theorem ok_bind (a : α) (f : α → Except String β) :
    (Except.ok a >>= f) = f a := rfl

@[simp] theorem error_bind (e : String) (f : α → Except String β) :
    ((Except.error e : Except String α) >>= f) = .error e := rfl

@[simp] theorem map_okE (g : α → β) (a : α) :
    (g <$> (Except.ok a : Except String α)) = .ok (g a) := rfl

@[simp] theorem map_errE (g : α → β) (e : String) :
    (g <$> (Except.error e : Except String α)) = .error e := rfl

@[simp] theorem pure_okE (a : α) : (pure a : Except String α) = .ok a := rfl

@[simp] theorem isErrE_error (e : String) : isErrE (.error e : Except String α) = true := rfl

@[simp] theorem isErrE_ok (a : α) : isErrE (.ok a : Except String α) = false := rfl

@[simp] theorem isOkE_error (e : String) : isOkE (.error e : Except String α) = false := rfl

@[simp] theorem isOkE_ok (a : α) : isOkE (.ok a : Except String α) = true := rfl

theorem bind_isErr (x : Except String α) (f : α → Except String β)
    (h : ∀ a, x = .ok a → isErrE (f a) = true) : isErrE (x >>= f) = true := by
  cases x with
  | error e => rfl
  | ok a => exact h a rfl

theorem bind_ok_elim (x : Except String α) (f : α → Except String β) (b : β)
    (h : (x >>= f) = .ok b) : ∃ a, x = .ok a ∧ f a = .ok b := by
  cases x with
  | ok a => exact ⟨a, rfl, h⟩
  | error e => simp at h

theorem reqField_none {fs : List (String × Json)} {k : String}
    {dec : Json → Except String α} (h : findField k fs = none) :
    reqField fs k dec = .error ("missing field " ++ k) := by
  simp [reqField, h]

theorem optField_absent {fs : List (String × Json)} {k : String}
    {dec : Json → Except String α} (h : findField k fs = none) :
    optField fs k dec = .ok none := by
  simp [optField, h]

theorem decodeOptVal_of {dec : Json → Except String α} {j : Json} {a : α}
    (hj : j ≠ Json.null) (h : dec j = .ok a) :
    decodeOptVal dec j = .ok (some a) := by
  cases j <;> simp_all [decodeOptVal]

@[simp] theorem rt_gender (v : Gender) :
    decodeEnum Gender.fromWire (Json.str (Gender.toWire v)) = .ok v := by
  cases v <;> rfl

@[simp] theorem rt_ekm (v : EnrichmentKitManufacturer) :
    decodeEnum EnrichmentKitManufacturer.fromWire (Json.str (EnrichmentKitManufacturer.toWire v)) = .ok v := by
  cases v <;> rfl

@[simp] theorem rt_fragmentationMethod (v : FragmentationMethod) :
    decodeEnum FragmentationMethod.fromWire (Json.str (FragmentationMethod.toWire v)) = .ok v := by
  cases v <;> rfl

@[simp] theorem rt_libraryType (v : LibraryType) :
    decodeEnum LibraryType.fromWire (Json.str (LibraryType.toWire v)) = .ok v := by
  cases v <;> rfl

@[simp] theorem rt_sampleConservation (v : SampleConservation) :
    decodeEnum SampleConservation.fromWire (Json.str (SampleConservation.toWire v)) = .ok v := by
  cases v <;> rfl

@[simp] theorem rt_checksumType (v : ChecksumType) :
    decodeEnum ChecksumType.fromWire (Json.str (ChecksumType.toWire v)) = .ok v := by
  cases v; rfl

@[simp] theorem rt_fileType (v : FileType) :
    decodeEnum FileType.fromWire (Json.str (FileType.toWire v)) = .ok v := by
  cases v <;> rfl

@[simp] theorem rt_readOrder (v : ReadOrder) :
    decodeEnum ReadOrder.fromWire (Json.str (ReadOrder.toWire v)) = .ok v := by
  cases v <;> rfl

@[simp] theorem rt_referenceGenome (v : ReferenceGenome) :
    decodeEnum ReferenceGenome.fromWire (Json.str (ReferenceGenome.toWire v)) = .ok v := by
  cases v <;> rfl

@[simp] theorem rt_sequenceSubtype (v : SequenceSubtype) :
    decodeEnum SequenceSubtype.fromWire (Json.str (SequenceSubtype.toWire v)) = .ok v := by
  cases v <;> rfl

@[simp] theorem rt_sequenceType (v : SequenceType) :
    decodeEnum SequenceType.fromWire (Json.str (SequenceType.toWire v)) = .ok v := by
  cases v <;> rfl

@[simp] theorem rt_sequencingLayout (v : SequencingLayout) :
    decodeEnum SequencingLayout.fromWire (Json.str (SequencingLayout.toWire v)) = .ok v := by
  cases v <;> rfl

@[simp] theorem rt_method (v : Method) :
    decodeEnum Method.fromWire (Json.str (Method.toWire v)) = .ok v := by
  cases v <;> rfl

@[simp] theorem rt_domain (v : Domain) :
    decodeEnum Domain.fromWire (Json.str (Domain.toWire v)) = .ok v := by
  cases v <;> rfl

@[simp] theorem rt_type (v : Type') :
    decodeEnum Type'.fromWire (Json.str (Type'.toWire v)) = .ok v := by
  cases v <;> rfl

@[simp] theorem rt_relation (v : Relation) :
    decodeEnum Relation.fromWire (Json.str (Relation.toWire v)) = .ok v := by
  cases v <;> rfl

@[simp] theorem rt_noScopeJustification (v : NoScopeJustification) :
    decodeEnum NoScopeJustification.fromWire (Json.str (NoScopeJustification.toWire v)) = .ok v := by
  cases v <;> rfl

@[simp] theorem rt_schemaVersion (v : SchemaVersion) :
    decodeEnum SchemaVersion.fromWire (Json.str (SchemaVersion.toWire v)) = .ok v := by
  cases v; rfl

@[simp] theorem rt_coverageType (v : CoverageType) :
    decodeEnum CoverageType.fromWire (Json.str (CoverageType.toWire v)) = .ok v := by
  cases v <;> rfl

@[simp] theorem rt_diseaseType (v : DiseaseType) :
    decodeEnum DiseaseType.fromWire (Json.str (DiseaseType.toWire v)) = .ok v := by
  cases v <;> rfl

@[simp] theorem rt_genomicStudySubtype (v : GenomicStudySubtype) :
    decodeEnum GenomicStudySubtype.fromWire (Json.str (GenomicStudySubtype.toWire v)) = .ok v := by
  cases v <;> rfl

@[simp] theorem rt_genomicStudyType (v : GenomicStudyType) :
    decodeEnum GenomicStudyType.fromWire (Json.str (GenomicStudyType.toWire v)) = .ok v := by
  cases v <;> rfl

@[simp] theorem rt_submissionType (v : SubmissionType) :
    decodeEnum SubmissionType.fromWire (Json.str (SubmissionType.toWire v)) = .ok v := by
  cases v <;> rfl

@[simp] theorem rt_decodeString (s : String) : decodeString (.str s) = .ok s := rfl

@[simp] theorem rt_decodeBool (b : Bool) : decodeBool (.bool b) = .ok b := rfl

@[simp] theorem rt_decodeF64 (q : Rat) : decodeF64 (.num q) = .ok (.finite q) := rfl

theorem rt_f64 {x : F64} (h : F64.fin x = true) : decodeF64 (encodeF64 x) = .ok x := by
  cases x with
  | finite q => rfl
  | nan => simp [F64.fin] at h
  | inf => simp [F64.fin] at h
  | negInf => simp [F64.fin] at h

@[simp] theorem rt_decodeI64 (n : Int) : decodeI64 (encodeI64 n) = .ok n := rfl

theorem rt_list (dec : Json → Except String α) (enc : α → Json) (xs : List α)
    (h : ∀ a ∈ xs, dec (enc a) = Except.ok a) :
    decodeList dec (Json.arr (xs.map enc)) = Except.ok xs := by
  induction xs with
  | nil => rfl
  | cons x rest ih =>
      have hx := h x (List.mem_cons_self x rest)
      have hrest := ih fun a ha => h a (List.mem_cons_of_mem _ ha)
      simp only [decodeList] at hrest ⊢
      simp [List.map, mapDecode, hx, hrest]

theorem rt_percentBases (p : PercentBasesAboveQualityThreshold) (h : p.wf = true) :
    decodePercentBases (encodePercentBases p) = .ok p := by
  simp only [PercentBasesAboveQualityThreshold.wf, Bool.and_eq_true] at h
  simp [decodePercentBases, encodePercentBases, checkFields, dupFree, memStr, keysIn,
        percentBasesFields, reqField, findField, rt_f64 h.1, rt_f64 h.2]

theorem rt_callerUsed (c : CallerUsed) :
    decodeCallerUsed (encodeCallerUsed c) = .ok c := rfl

theorem rt_tissueOntology (t : TissueOntology) :
    decodeTissueOntology (encodeTissueOntology t) = .ok t := rfl

theorem rt_tumorCellCount (t : TumorCellCount) (h : t.wf = true) :
    decodeTumorCellCount (encodeTumorCellCount t) = .ok t := by
  simp only [TumorCellCount.wf] at h
  simp [decodeTumorCellCount, encodeTumorCellCount, checkFields, dupFree, memStr, keysIn,
        tumorCellCountFields, reqField, findField, encodeEnum, rt_f64 h]

theorem rt_scope (s : Scope) : decodeScope (encodeScope s) = .ok s := by
  simp [decodeScope, encodeScope, checkFields, dupFree, memStr, keysIn,
        scopeFields, reqField, findField, encodeEnum]

theorem rt_submission (s : Submission) : decodeSubmission (encodeSubmission s) = .ok s := by
  simp [decodeSubmission, encodeSubmission, checkFields, dupFree, memStr, keysIn,
        submissionFields, reqField, findField, encodeEnum]

theorem rt_file (f : File) (h : f.wf = true) : decodeFile (encodeFile f) = .ok f := by
  obtain ⟨ct, fc, fp, fz, ft, fl, ln, rl, ro⟩ := f
  simp only [File.wf] at h
  cases ct <;> cases fl <;> cases ln <;> cases rl <;> cases ro <;>
    simp [decodeFile, encodeFile, checkFields, dupFree, memStr, keysIn, fileFields,
          reqField, optField, findField, optPair, decodeOptVal, encodeEnum, encodeI64,
          decodeI64, intRat, rt_f64 h]

theorem rt_sequenceData (s : SequenceData) (h : s.wf = true) :
    decodeSequenceData (encodeSequenceData s) = .ok s := by
  obtain ⟨pn, pv, cu, fls, mdc, mc, ncv, pbaqt, rg, trc⟩ := s
  simp only [SequenceData.wf, Bool.and_eq_true] at h
  obtain ⟨⟨⟨⟨h1, h2⟩, h3⟩, h4⟩, h5⟩ := h
  have hcu := rt_list decodeCallerUsed encodeCallerUsed cu fun a _ => rt_callerUsed a
  have hfls := rt_list decodeFile encodeFile fls
    fun a ha => rt_file a ((List.all_eq_true.mp h5) a ha)
  simp [decodeSequenceData, encodeSequenceData, sequenceDataFields, checkFields, dupFree,
        memStr, keysIn, reqField, findField, encodeEnum, hcu, hfls,
        rt_percentBases pbaqt h4, rt_f64 h1, rt_f64 h2, rt_f64 h3]

theorem rt_labDatum (l : LabDatum) (h : l.wf = true) :
    decodeLabDatum (encodeLabDatum l) = .ok l := by
  obtain ⟨bc, ekd, ekm, fm, km, kn, ldn, lpk, lpkm, lt, sc, sdate, sd, ss, st, sm, smod,
          sl, tto, tti, ttn, tcc⟩ := l
  simp only [LabDatum.wf, Bool.and_eq_true] at h
  obtain ⟨hsdw, htccw⟩ := h
  have hsd : ∀ x : SequenceData, x.wf = true →
      decodeOptVal decodeSequenceData (encodeSequenceData x) = .ok (some x) :=
    fun x hx => decodeOptVal_of (by simp [encodeSequenceData]) (rt_sequenceData x hx)
  have htcc : ∀ ts : List TumorCellCount, ts.all TumorCellCount.wf = true →
      decodeOptVal (decodeList decodeTumorCellCount)
        (Json.arr (ts.map encodeTumorCellCount)) = .ok (some ts) :=
    fun ts hts => decodeOptVal_of (by simp)
      (rt_list decodeTumorCellCount encodeTumorCellCount ts
        fun a ha => rt_tumorCellCount a ((List.all_eq_true.mp hts) a ha))
  cases sd with
  | none =>
      cases tcc with
      | none =>
          simp [decodeLabDatum, encodeLabDatum, labDatumFields, checkFields, dupFree,
                memStr, keysIn, reqField, optField, findField, optPair, encodeEnum,
                rt_tissueOntology]
      | some ts =>
          simp only at htccw
          simp [decodeLabDatum, encodeLabDatum, labDatumFields, checkFields, dupFree,
                memStr, keysIn, reqField, optField, findField, optPair, encodeEnum,
                rt_tissueOntology, htcc ts htccw]
  | some x =>
      simp only at hsdw
      cases tcc with
      | none =>
          simp [decodeLabDatum, encodeLabDatum, labDatumFields, checkFields, dupFree,
                memStr, keysIn, reqField, optField, findField, optPair, encodeEnum,
                rt_tissueOntology, hsd x hsdw]
      | some ts =>
          simp only at htccw
          simp [decodeLabDatum, encodeLabDatum, labDatumFields, checkFields, dupFree,
                memStr, keysIn, reqField, optField, findField, optPair, encodeEnum,
                rt_tissueOntology, hsd x hsdw, htcc ts htccw]

theorem rt_mvConsent (m : MvConsent) : decodeMvConsent (encodeMvConsent m) = .ok m := by
  obtain ⟨pd, sc, v⟩ := m
  have hsc := rt_list decodeScope encodeScope sc fun a _ => rt_scope a
  cases pd <;>
    simp [decodeMvConsent, encodeMvConsent, mvConsentFields, checkFields, dupFree, memStr,
          keysIn, reqField, optField, findField, optPair, decodeOptVal, hsc]

theorem scopeVal_rt {v : Option Json} (h : scopeValOk v = true) :
    decodeScopeVal (encodeScopeVal v) = v := by
  cases v with
  | none => rfl
  | some j => cases j <;> simp_all [scopeValOk, decodeScopeVal, encodeScopeVal]

theorem digitChar_facts (d : Nat) (h : d < 10) :
    (digitChar d).isDigit = true ∧ (digitChar d).toNat - 48 = d ∧
    digitChar d ≠ 'n' ∧ digitChar d ≠ 't' ∧ digitChar d ≠ 'f' ∧ digitChar d ≠ '"' ∧
    digitChar d ≠ '[' ∧ digitChar d ≠ '\x7b' ∧ digitChar d ≠ ' ' ∧ digitChar d ≠ '\n' ∧
    digitChar d ≠ '\t' ∧ digitChar d ≠ '\r' := by
  interval_cases d <;> exact (by decide)

theorem isDigit_not_special {c : Char} (h : c.isDigit = true) :
    c ≠ ' ' ∧ c ≠ '\n' ∧ c ≠ '\t' ∧ c ≠ '\r' ∧ c ≠ 'n' ∧ c ≠ 't' ∧ c ≠ 'f' ∧
    c ≠ '"' ∧ c ≠ '[' ∧ c ≠ '\x7b' := by
  refine ⟨?_, ?_, ?_, ?_, ?_, ?_, ?_, ?_, ?_, ?_⟩ <;> (intro he; subst he; simp at h)

theorem natDigitsF_spec : ∀ fuel n, n < 10 ^ (fuel + 1) →
    (∀ c ∈ natDigitsF (fuel + 1) n, c.isDigit = true) ∧
    valMSB (natDigitsF (fuel + 1) n) = n ∧ natDigitsF (fuel + 1) n ≠ [] := by
  intro fuel
  induction fuel with
  | zero =>
      intro n hn
      have h10 : n < 10 := by simpa using hn
      simp only [natDigitsF, if_pos h10]
      refine ⟨?_, ?_, by simp⟩
      · intro c hc
        simp only [List.mem_singleton] at hc
        subst hc
        exact (digitChar_facts n h10).1
      · show 0 * 10 + ((digitChar n).toNat - 48) = n
        simpa using (digitChar_facts n h10).2.1
  | succ fuel ih =>
      intro n hn
      by_cases h10 : n < 10
      · simp only [natDigitsF, if_pos h10]
        refine ⟨?_, ?_, by simp⟩
        · intro c hc
          simp only [List.mem_singleton] at hc
          subst hc
          exact (digitChar_facts n h10).1
        · show 0 * 10 + ((digitChar n).toNat - 48) = n
          simpa using (digitChar_facts n h10).2.1
      · rw [show natDigitsF (fuel + 1 + 1) n =
            natDigitsF (fuel + 1) (n / 10) ++ [digitChar (n % 10)] by
          simp only [natDigitsF]; rw [if_neg h10]]
        have hdiv : n / 10 < 10 ^ (fuel + 1) := by
          rw [Nat.div_lt_iff_lt_mul (by norm_num)]
          calc n < 10 ^ (fuel + 1 + 1) := hn
          _ = 10 ^ (fuel + 1) * 10 := by ring
        obtain ⟨ha, hv, _⟩ := ih (n / 10) hdiv
        have hmod := digitChar_facts (n % 10) (Nat.mod_lt _ (by norm_num))
        refine ⟨?_, ?_, by simp⟩
        · intro c hc
          rcases List.mem_append.mp hc with hmem | hmem
          · exact ha c hmem
          · simp only [List.mem_singleton] at hmem
            subst hmem
            exact hmod.1
        · simp only [valMSB, List.foldl_append, List.foldl_cons, List.foldl_nil]
          rw [show List.foldl (fun a c => a * 10 + (c.toNat - 48)) 0
              (natDigitsF (fuel + 1) (n / 10)) = valMSB (natDigitsF (fuel + 1) (n / 10)) from rfl,
            hv, hmod.2.1]
          omega

theorem natDigits_spec (n : Nat) :
    (∀ c ∈ natDigits n, c.isDigit = true) ∧ valMSB (natDigits n) = n ∧ natDigits n ≠ [] := by
  refine natDigitsF_spec n n ?_
  calc n < 10 ^ n := Nat.lt_pow_self (by norm_num) n
  _ ≤ 10 ^ (n + 1) := Nat.pow_le_pow_right (by norm_num) (Nat.le_succ n)

theorem go_digits (ds : List Char) (hds : ∀ c ∈ ds, c.isDigit = true) :
    ∀ acc cnt (rest : List Char), noDigitB rest = true →
      parseDigits.go acc cnt (ds ++ rest) =
        (ds.foldl (fun a c => a * 10 + (c.toNat - 48)) acc, cnt + ds.length, rest) := by
  induction ds with
  | nil =>
      intro acc cnt rest hrest
      cases rest with
      | nil => simp [parseDigits.go]
      | cons c r =>
          have hc : c.isDigit = false := by
            simpa [noDigitB] using hrest
          simp [parseDigits.go, hc]
  | cons d ds ih =>
      intro acc cnt rest hrest
      have hd : d.isDigit = true := hds d (List.mem_cons_self _ _)
      simp only [List.cons_append, parseDigits.go, hd, if_true, List.append_eq]
      rw [ih (fun c hc => hds c (List.mem_cons_of_mem _ hc)) _ _ _ hrest]
      simp only [List.foldl_cons, List.length_cons]
      have : cnt + 1 + ds.length = cnt + (ds.length + 1) := by omega
      rw [this]

theorem parseDigits_print (n : Nat) (rest : List Char) (hrest : noDigitB rest = true) :
    parseDigits (natDigits n ++ rest) = some (n, (natDigits n).length, rest) := by
  obtain ⟨ha, hv, hne⟩ := natDigits_spec n
  obtain ⟨d, ds, hds⟩ := List.exists_cons_of_ne_nil hne
  have hd : d.isDigit = true := ha d (by rw [hds]; exact List.mem_cons_self _ _)
  rw [hds]
  simp only [parseDigits, List.cons_append, hd, if_true]
  rw [show d :: (ds ++ rest) = (d :: ds) ++ rest from rfl,
      go_digits (d :: ds) (by rw [← hds]; exact ha) 0 0 rest hrest]
  rw [show (d :: ds).foldl (fun a c => a * 10 + (c.toNat - 48)) 0 = valMSB (d :: ds) from rfl]
  rw [← hds, hv]
  simp

@[simp] theorem obind_some (a : α) (f : α → Option β) : (some a >>= f) = f a := rfl

@[simp] theorem obind_none (f : α → Option β) : ((none : Option α) >>= f) = none := rfl

@[simp] theorem opure_some (a : α) : (pure a : Option α) = some a := rfl

theorem decRat_eq (q : Rat) (hq : 10 ^ q.den % q.den = 0) :
    mkRat (decMant q) 1 * mkRat 1 (10 ^ q.den) = q := by
  have hdvd : q.den ∣ 10 ^ q.den := Nat.dvd_of_mod_eq_zero hq
  have hden0 : (q.den : ℚ) ≠ 0 := Nat.cast_ne_zero.mpr q.den_nz
  have h10 : ((10 : ℚ) ^ q.den) ≠ 0 := by positivity
  have hmant : ((decMant q : ℚ)) = q * (10 ^ q.den : ℚ) := by
    have h2 : ((10 ^ q.den / q.den : ℕ) : ℚ) = ((10 : ℚ) ^ q.den) / (q.den : ℚ) := by
      rw [Nat.cast_div hdvd hden0]
      push_cast
      ring
    have h1 : ((decMant q : ℚ)) = (q.num : ℚ) * (((10 ^ q.den / q.den : ℕ) : ℚ)) := by
      simp only [decMant, Int.cast_mul, Int.cast_natCast]
    calc ((decMant q : ℚ))
        = ((10 : ℚ) ^ q.den) * ((q.num : ℚ) / (q.den : ℚ)) := by rw [h1, h2]; ring
      _ = ((10 : ℚ) ^ q.den) * q := by rw [Rat.num_div_den]
      _ = q * (10 ^ q.den : ℚ) := by ring
  rw [Rat.mkRat_eq_div, Rat.mkRat_eq_div, hmant]
  push_cast
  field_simp

theorem decMant_sign (q : Rat) (hq : 10 ^ q.den % q.den = 0) :
    (if q.num < 0 then (-1 : Int) else 1) * ((decMant q).natAbs : Int) = decMant q := by
  have hdvd : q.den ∣ 10 ^ q.den := Nat.dvd_of_mod_eq_zero hq
  have hpos : 0 < (10 ^ q.den / q.den : Nat) :=
    Nat.div_pos (Nat.le_of_dvd (by positivity) hdvd) (Nat.pos_of_ne_zero q.den_nz)
  have hc : (0 : Int) < ((10 ^ q.den / q.den : Nat) : Int) := by exact_mod_cast hpos
  by_cases hneg : q.num < 0
  · have hnp : decMant q ≤ 0 := by
      simp only [decMant]
      exact mul_nonpos_of_nonpos_of_nonneg (le_of_lt hneg) (le_of_lt hc)
    rw [if_pos hneg, Int.ofNat_natAbs_of_nonpos hnp]
    ring
  · have hnn : 0 ≤ decMant q := by
      simp only [decMant]
      exact mul_nonneg (not_lt.mp hneg) (le_of_lt hc)
    rw [if_neg hneg, Int.natAbs_of_nonneg hnn]
    ring

theorem isDigit_ne {c : Char} (h : c.isDigit = true) :
    c ≠ '-' ∧ c ≠ '.' ∧ c ≠ 'e' ∧ c ≠ 'E' ∧ c ≠ '+' := by
  refine ⟨?_, ?_, ?_, ?_, ?_⟩ <;> (intro he; subst he; simp at h)

theorem parseNum_core (c : Prop) [Decidable c] (M k : Nat) (hk1 : 1 ≤ k)
    (rest : List Char) (hrest : noDigitB rest = true) :
    parseNumber ((if c then ['-'] else []) ++
        (natDigits M ++ 'e' :: '-' :: (natDigits k ++ rest))) =
      some (mkRat (if c then -(M : Int) else (M : Int)) 1 * mkRat 1 (10 ^ k), rest) := by
  have hmid : noDigitB ('e' :: '-' :: (natDigits k ++ rest)) = true := rfl
  have hdig := parseDigits_print M ('e' :: '-' :: (natDigits k ++ rest)) hmid
  have hk := parseDigits_print k rest hrest
  obtain ⟨d, ds, hds⟩ := List.exists_cons_of_ne_nil (natDigits_spec M).2.2
  have hd : d.isDigit = true := (natDigits_spec M).1 d (by rw [hds]; exact List.mem_cons_self _ _)
  have hexp : ¬((0 : Int) ≤ -1 * (k : Int)) := by omega
  have htoN : (-(-1 * (k : Int))).toNat = k := by omega
  rw [hds] at hdig
  simp only [List.cons_append] at hdig
  by_cases hc : c
  · rw [if_pos hc, if_pos hc]
    simp [parseNumber, hds, hdig, hk, hexp, htoN]
    rw [if_neg (by omega : ¬ k = 0), Rat.mkRat_eq_div, Rat.mkRat_eq_div]
    push_cast
    ring
  · rw [if_neg hc, if_neg hc]
    simp [parseNumber, hds, hdig, hk, hexp, htoN, (isDigit_ne hd).1]
    rw [if_neg (by omega : ¬ k = 0), Rat.mkRat_eq_div, Rat.mkRat_eq_div]
    push_cast
    ring

theorem parseNumber_print (q : Rat) (hq : 10 ^ q.den % q.den = 0)
    (rest : List Char) (hrest : noDigitB rest = true) :
    parseNumber (printNum q ++ rest) = some (q, rest) := by
  have hden1 : 1 ≤ q.den := Nat.pos_of_ne_zero q.den_nz
  have hshape : printNum q ++ rest = (if q.num < 0 then ['-'] else []) ++
      (natDigits (decMant q).natAbs ++ 'e' :: '-' :: (natDigits q.den ++ rest)) := by
    simp [printNum, decExp, List.append_assoc]
  rw [hshape, parseNum_core (q.num < 0) (decMant q).natAbs q.den hden1 rest hrest]
  have hsign := decMant_sign q hq
  have hif : (if q.num < 0 then -((decMant q).natAbs : Int) else ((decMant q).natAbs : Int))
      = decMant q := by
    by_cases hneg : q.num < 0
    · rw [if_pos hneg]; rw [if_pos hneg] at hsign; omega
    · rw [if_neg hneg]; rw [if_neg hneg] at hsign; omega
  rw [hif, decRat_eq q hq]

theorem memStr_iff (k : String) (l : List String) : memStr k l = true ↔ k ∈ l := by
  induction l with
  | nil => simp [memStr]
  | cons a rest ih =>
      simp only [memStr, List.mem_cons]
      split
      · simp_all
      · simp_all

theorem memStr_append (k : String) (a b : List String) :
    memStr k (a ++ b) = (memStr k a || memStr k b) := by
  induction a with
  | nil => simp [memStr]
  | cons x xs ih =>
      simp only [List.cons_append, memStr]
      split <;> simp [ih]

theorem foldl_insertKV_fresh (dec : Json → Option Json) (l : List (String × Json)) :
    ∀ acc : List (String × Option Json),
      dupFree (l.map Prod.fst) = true →
      (∀ p ∈ l, memStr p.1 (acc.map Prod.fst) = false) →
      l.foldl (fun acc p => insertKV acc p.1 (dec p.2)) acc
        = acc ++ l.map fun p => (p.1, dec p.2) := by
  induction l with
  | nil => intro acc _ _; simp
  | cons p rest ih =>
      intro acc hdf hfresh
      have hp : memStr p.1 (acc.map Prod.fst) = false :=
        hfresh p (List.mem_cons_self _ _)
      have hstep : insertKV acc p.1 (dec p.2) = acc ++ [(p.1, dec p.2)] := by
        simp [insertKV, hp]
      simp only [List.foldl_cons, hstep]
      simp only [dupFree, List.map_cons] at hdf
      have hpn : memStr p.1 (List.map Prod.fst rest) = false := by
        cases hmp : memStr p.1 (List.map Prod.fst rest)
        · rfl
        · rw [hmp] at hdf; simp at hdf
      rw [hpn] at hdf
      simp only [if_neg Bool.false_ne_true] at hdf
      have hfresh' : ∀ q ∈ rest,
          memStr q.1 ((acc ++ [(p.1, dec p.2)]).map Prod.fst) = false := by
        intro q hq
        have h1 : memStr q.1 (acc.map Prod.fst) = false :=
          hfresh q (List.mem_cons_of_mem _ hq)
        have h2 : q.1 ≠ p.1 := by
          intro he
          have hmem : p.1 ∈ List.map Prod.fst rest :=
            he ▸ List.mem_map_of_mem Prod.fst hq
          rw [(memStr_iff p.1 (List.map Prod.fst rest)).mpr hmem] at hpn
          cases hpn
        rw [List.map_append, memStr_append]
        simp [h1, memStr, h2]
      rw [ih _ hdf hfresh', List.append_assoc]
      simp

theorem dupFree_tail {x : String} {l : List String}
    (h : dupFree (x :: l) = true) : dupFree l = true := by
  simp only [dupFree] at h
  split at h
  · cases h
  · exact h

theorem rt_scopeMap (m : List (String × Option Json))
    (hdf : dupFree (m.map Prod.fst) = true)
    (h : ∀ p ∈ m, scopeValOk p.2 = true) :
    decodeScopeMap (encodeScopeMap m) = .ok m := by
  simp only [encodeScopeMap, decodeScopeMap]
  rw [foldl_insertKV_fresh decodeScopeVal _ []
    (by simpa [List.map_map, Function.comp] using hdf) (by intro p _; rfl)]
  simp only [List.nil_append, List.map_map]
  congr 1
  induction m with
  | nil => rfl
  | cons p rest ih =>
      obtain ⟨k, v⟩ := p
      have hv := scopeVal_rt (h (k, v) (List.mem_cons_self _ _))
      simp only [List.map_cons]
      rw [ih (dupFree_tail (by simpa using hdf)) fun q hq => h q (List.mem_cons_of_mem _ hq)]
      simp [Function.comp, hv]

theorem rt_researchConsent (r : ResearchConsent) (h : r.wf = true) :
    decodeResearchConsent (encodeResearchConsent r) = .ok r := by
  obtain ⟨nsj, pd, sv, sc⟩ := r
  cases sc with
  | none =>
      cases nsj <;> cases sv <;>
        simp [decodeResearchConsent, encodeResearchConsent, researchConsentFields,
              checkFields, dupFree, memStr, keysIn, reqField, optField, findField,
              optPair, decodeOptVal, encodeEnum]
  | some m =>
      simp only [ResearchConsent.wf, scopeMapWf, Bool.and_eq_true] at h
      have hm : decodeScopeMap (encodeScopeMap m) = .ok m :=
        rt_scopeMap m h.1 fun p hp => (List.all_eq_true.mp h.2) p hp
      simp only [encodeScopeMap] at hm
      cases nsj <;> cases sv <;>
        simp [decodeResearchConsent, encodeResearchConsent, researchConsentFields,
              checkFields, dupFree, memStr, keysIn, reqField, optField, findField,
              optPair, decodeOptVal, encodeEnum, encodeScopeMap, hm]

theorem rt_donor (d : Donor) (h : d.wf = true) : decodeDonor (encodeDonor d) = .ok d := by
  obtain ⟨dp, g, ld, mv, rel, rcs⟩ := d
  simp only [Donor.wf, Bool.and_eq_true] at h
  obtain ⟨hldw, hrcw⟩ := h
  have hld := rt_list decodeLabDatum encodeLabDatum ld
    fun a ha => rt_labDatum a ((List.all_eq_true.mp hldw) a ha)
  have hrcs := rt_list decodeResearchConsent encodeResearchConsent rcs
    fun a ha => rt_researchConsent a ((List.all_eq_true.mp hrcw) a ha)
  simp [decodeDonor, encodeDonor, donorFields, checkFields, dupFree, memStr, keysIn,
        reqField, findField, encodeEnum, hld, hrcs, rt_mvConsent]

theorem rt_metadata (m : Metadata) (h : m.wf = true) :
    decodeMetadata (encodeMetadata m) = .ok m := by
  obtain ⟨ds, sub⟩ := m
  simp only [Metadata.wf] at h
  have hds := rt_list decodeDonor encodeDonor ds
    fun a ha => rt_donor a ((List.all_eq_true.mp h) a ha)
  simp [decodeMetadata, encodeMetadata, metadataFields, checkFields, dupFree, memStr,
        keysIn, reqField, findField, hds, rt_submission]

theorem keysIn_false {k : String} {ks allowed : List String}
    (hk : k ∈ ks) (hn : k ∉ allowed) : keysIn ks allowed = false := by
  induction ks with
  | nil => cases hk
  | cons a rest ih =>
      simp only [keysIn]
      rcases List.mem_cons.mp hk with rfl | hmem
      · have : memStr k allowed = false := by
          cases h : memStr k allowed
          · rfl
          · exact absurd ((memStr_iff k allowed).mp h) hn
        simp [this]
      · cases h : memStr a allowed
        · simp
        · simpa [h] using ih hmem

theorem checkFields_err {fs : List (String × Json)} {allowed : List String} {k : String}
    (hk : k ∈ fs.map Prod.fst) (hn : k ∉ allowed) :
    isErrE (checkFields fs allowed) = true := by
  unfold checkFields
  cases hdf : dupFree (fs.map Prod.fst)
  · simp
  · simp [keysIn_false hk hn]

theorem bind_isErr_left {x : Except String α} (f : α → Except String β)
    (h : isErrE x = true) : isErrE (x >>= f) = true := by
  cases x
  · rfl
  · simp [isErrE] at h

/-- C2: a field name outside the declared field set of the record decoded at
any level — here the root record `Metadata` and the nested record `LabDatum` —
makes the whole decode fail; no unknown field is ignored. -/
theorem C2_unknown_fields_rejected :
    (∀ fs k, k ∈ fs.map Prod.fst → k ∉ metadataFields →
        isErrE (decodeMetadata (Json.obj fs)) = true)
  ∧ (∀ fs k, k ∈ fs.map Prod.fst → k ∉ labDatumFields →
        isErrE (decodeLabDatum (Json.obj fs)) = true) := by
  constructor
  · intro fs k hk hn
    simp only [decodeMetadata]
    exact bind_isErr_left _ (checkFields_err hk hn)
  · intro fs k hk hn
    simp only [decodeLabDatum]
    exact bind_isErr_left _ (checkFields_err hk hn)

/-- C2 witness: a document with one extra field fails at the root and inside
a lab datum. -/
theorem C2_unknown_fields_rejected_witness :
    isErrE (decodeMetadata (Json.obj [("donors", Json.arr []),
      ("submission", submissionDoc), ("extra", Json.null)])) = true
  ∧ isErrE (decodeLabDatum (Json.obj [("extraField", Json.null)])) = true :=
  ⟨C2_unknown_fields_rejected.1 _ "extra" (by decide) (by decide),
   C2_unknown_fields_rejected.2 _ "extraField" (by decide) (by decide)⟩

/-- C3: a required field of `Donor` that is absent, or present with the wrong
shape, fails the decode; an absent optional field (`LabDatum.sequence_data`)
decodes to `none`, and a lab datum document with only the optional fields
omitted decodes successfully with both optional fields `none`. -/
theorem C3_required_vs_optional :
    (∀ fs k, k ∈ donorFields → findField k fs = none →
        isErrE (decodeDonor (Json.obj fs)) = true)
  ∧ (∀ fs q, findField "donorPseudonym" fs = some (Json.num q) →
        isErrE (decodeDonor (Json.obj fs)) = true)
  ∧ (∀ fs d, decodeLabDatum (Json.obj fs) = .ok d →
        findField "sequenceData" fs = none → d.sequence_data = none)
  ∧ (∃ d, decodeLabDatum labDatumRequiredOnlyDoc = .ok d ∧
        d.sequence_data = none ∧ d.tumor_cell_count = none) := by
  refine ⟨?_, ?_, ?_, ⟨_, rfl, rfl, rfl⟩⟩
  · intro fs k hk hf
    simp only [donorFields, List.mem_cons, List.not_mem_nil, or_false] at hk
    simp only [decodeDonor]
    rcases hk with rfl | rfl | rfl | rfl | rfl | rfl
    · apply bind_isErr; intro _ _
      rw [reqField_none hf]; rfl
    · apply bind_isErr; intro _ _
      apply bind_isErr; intro _ _
      rw [reqField_none hf]; rfl
    · apply bind_isErr; intro _ _
      apply bind_isErr; intro _ _
      apply bind_isErr; intro _ _
      rw [reqField_none hf]; rfl
    · apply bind_isErr; intro _ _
      apply bind_isErr; intro _ _
      apply bind_isErr; intro _ _
      apply bind_isErr; intro _ _
      rw [reqField_none hf]; rfl
    · apply bind_isErr; intro _ _
      apply bind_isErr; intro _ _
      apply bind_isErr; intro _ _
      apply bind_isErr; intro _ _
      apply bind_isErr; intro _ _
      rw [reqField_none hf]; rfl
    · apply bind_isErr; intro _ _
      apply bind_isErr; intro _ _
      apply bind_isErr; intro _ _
      apply bind_isErr; intro _ _
      apply bind_isErr; intro _ _
      apply bind_isErr; intro _ _
      rw [reqField_none hf]; rfl
  · intro fs q hf
    simp only [decodeDonor]
    apply bind_isErr; intro _ _
    simp [reqField, hf, decodeString]
  · intro fs d hd hf
    simp only [decodeLabDatum] at hd
    obtain ⟨_, _, hd⟩ := bind_ok_elim _ _ _ hd
    obtain ⟨_, _, hd⟩ := bind_ok_elim _ _ _ hd
    obtain ⟨_, _, hd⟩ := bind_ok_elim _ _ _ hd
    obtain ⟨_, _, hd⟩ := bind_ok_elim _ _ _ hd
    obtain ⟨_, _, hd⟩ := bind_ok_elim _ _ _ hd
    obtain ⟨_, _, hd⟩ := bind_ok_elim _ _ _ hd
    obtain ⟨_, _, hd⟩ := bind_ok_elim _ _ _ hd
    obtain ⟨_, _, hd⟩ := bind_ok_elim _ _ _ hd
    obtain ⟨_, _, hd⟩ := bind_ok_elim _ _ _ hd
    obtain ⟨_, _, hd⟩ := bind_ok_elim _ _ _ hd
    obtain ⟨_, _, hd⟩ := bind_ok_elim _ _ _ hd
    obtain ⟨_, _, hd⟩ := bind_ok_elim _ _ _ hd
    obtain ⟨_, _, hd⟩ := bind_ok_elim _ _ _ hd
    obtain ⟨sd, hsd, hd⟩ := bind_ok_elim _ _ _ hd
    rw [optField_absent hf] at hsd
    obtain rfl : sd = none := (Except.ok.inj hsd).symm
    obtain ⟨_, _, hd⟩ := bind_ok_elim _ _ _ hd
    obtain ⟨_, _, hd⟩ := bind_ok_elim _ _ _ hd
    obtain ⟨_, _, hd⟩ := bind_ok_elim _ _ _ hd
    obtain ⟨_, _, hd⟩ := bind_ok_elim _ _ _ hd
    obtain ⟨_, _, hd⟩ := bind_ok_elim _ _ _ hd
    obtain ⟨_, _, hd⟩ := bind_ok_elim _ _ _ hd
    obtain ⟨_, _, hd⟩ := bind_ok_elim _ _ _ hd
    obtain ⟨_, _, hd⟩ := bind_ok_elim _ _ _ hd
    obtain ⟨_, _, hd⟩ := bind_ok_elim _ _ _ hd
    rw [pure_okE] at hd
    obtain rfl := Except.ok.inj hd
    rfl

/-- C3 witness: a donor document missing the required `relation` field fails,
one with a numeric `donorPseudonym` fails, and the required-only lab datum
document decodes with `sequence_data = none`. -/
theorem C3_required_vs_optional_witness :
    isErrE (decodeDonor (Json.obj [("donorPseudonym", Json.str "index")])) = true
  ∧ isErrE (decodeDonor (Json.obj [("donorPseudonym", Json.num 1)])) = true
  ∧ (∀ d, decodeLabDatum labDatumRequiredOnlyDoc = .ok d → d.sequence_data = none) :=
  ⟨C3_required_vs_optional.1 _ "relation" (by decide) (by rfl),
   C3_required_vs_optional.2.1 _ 1 (by rfl),
   fun d hd => C3_required_vs_optional.2.2.1 _ d hd (by rfl)⟩

/-- C4: each enum field accepts exactly its closed set of wire spellings —
shown for `Gender` and `ReferenceGenome` — and in particular `"man"` and the
lowercase `"grch38"` fail while `"GRCh37"` and `"GRCh38"` succeed. -/
theorem C4_enum_closed_sets :
    (∀ s : String, isOkE (decodeEnum Gender.fromWire (Json.str s)) = true ↔
        s ∈ ["female", "male", "other", "unknown"])
  ∧ (∀ s : String, isOkE (decodeEnum ReferenceGenome.fromWire (Json.str s)) = true ↔
        s = "GRCh37" ∨ s = "GRCh38")
  ∧ isErrE (decodeEnum Gender.fromWire (Json.str "man")) = true
  ∧ isErrE (decodeEnum ReferenceGenome.fromWire (Json.str "grch38")) = true
  ∧ decodeEnum ReferenceGenome.fromWire (Json.str "GRCh37") = .ok .GrCh37
  ∧ decodeEnum ReferenceGenome.fromWire (Json.str "GRCh38") = .ok .GrCh38 := by
  refine ⟨?_, ?_, rfl, rfl, rfl, rfl⟩
  · intro s
    simp only [decodeEnum, Gender.fromWire]
    split_ifs <;> simp_all
  · intro s
    simp only [decodeEnum, ReferenceGenome.fromWire]
    split_ifs <;> simp_all

/-- C5: encoding omits every absent optional field (shown for all five
optional fields of `File` and for `ResearchConsent.scope`), while an explicit
null stored inside the open scope mapping is emitted as a JSON null. -/
theorem C5_encode_omits_absent_optionals :
    (∀ f : File,
        ("checksumType" ∈ jsonKeys (encodeFile f) ↔ f.checksum_type.isSome = true)
      ∧ ("flowcellId" ∈ jsonKeys (encodeFile f) ↔ f.flowcell_id.isSome = true)
      ∧ ("laneId" ∈ jsonKeys (encodeFile f) ↔ f.lane_id.isSome = true)
      ∧ ("readLength" ∈ jsonKeys (encodeFile f) ↔ f.read_length.isSome = true)
      ∧ ("readOrder" ∈ jsonKeys (encodeFile f) ↔ f.read_order.isSome = true))
  ∧ (∀ r : ResearchConsent,
        "scope" ∈ jsonKeys (encodeResearchConsent r) ↔ r.scope.isSome = true)
  ∧ (∀ r : ResearchConsent, ∀ m, r.scope = some m → ∀ k, (k, none) ∈ m →
        ∃ sfs, jsonLookup (encodeResearchConsent r) "scope" = some (Json.obj sfs)
          ∧ (k, Json.null) ∈ sfs) := by
  refine ⟨?_, ?_, ?_⟩
  · intro f
    obtain ⟨ct, fc, fp, fz, ft, fl, ln, rl, ro⟩ := f
    cases ct <;> cases fl <;> cases ln <;> cases rl <;> cases ro <;>
      simp [encodeFile, jsonKeys, optPair]
  · intro r
    obtain ⟨nsj, pd, sv, sc⟩ := r
    cases nsj <;> cases sv <;> cases sc <;>
      simp [encodeResearchConsent, jsonKeys, optPair]
  · intro r m hm k hk
    obtain ⟨nsj, pd, sv, sc⟩ := r
    simp only at hm
    subst hm
    refine ⟨m.map fun p => (p.1, encodeScopeVal p.2), ?_, ?_⟩
    · cases nsj <;> cases sv <;>
        simp [encodeResearchConsent, jsonLookup, findField, optPair, encodeScopeMap]
    · exact List.mem_map.mpr ⟨(k, none), hk, rfl⟩

/-- C5 witness: the example research consent stores an explicit null under
`status`; its encoding emits `status: null` inside the scope object. -/
theorem C5_encode_omits_absent_optionals_witness :
    ∃ sfs, jsonLookup (encodeResearchConsent exampleResearchConsent) "scope" =
        some (Json.obj sfs) ∧ ("status", Json.null) ∈ sfs :=
  C5_encode_omits_absent_optionals.2.2 exampleResearchConsent _ rfl "status"
    (List.mem_cons_of_mem _ (List.mem_cons_self _ _))

/-- C6 counterexample: `Scope` emits the wire name `type`, which is not among
its declared field identifiers (`date`, `domain`, `scope_type`), and a
document spelling the field `scope_type` fails to decode. -/
theorem C6_counterexample :
    "type" ∈ jsonKeys (encodeScope ⟨"2024-01-01", .MvSequencing, .Permit⟩)
  ∧ "type" ∉ ["date", "domain", "scope_type"]
  ∧ isErrE (decodeScope (Json.obj [("date", .str "2024-01-01"),
      ("domain", .str "mvSequencing"), ("scope_type", .str "permit")])) = true := by
  refine ⟨by simp [encodeScope, jsonKeys], by decide, by rfl⟩

/-- C6 (amended): `Metadata`, `CallerUsed`, `TissueOntology` and
`TumorCellCount` use their declared field identifiers verbatim on the wire;
`Scope` uses `date` and `domain` verbatim but renames `scope_type` to `type`,
and decode accepts exactly those spellings. -/
theorem C6_verbatim_field_names :
    (∀ m : Metadata, jsonKeys (encodeMetadata m) = ["donors", "submission"])
  ∧ (∀ c : CallerUsed, jsonKeys (encodeCallerUsed c) = ["name", "version"])
  ∧ (∀ t : TissueOntology, jsonKeys (encodeTissueOntology t) = ["name", "version"])
  ∧ (∀ t : TumorCellCount, jsonKeys (encodeTumorCellCount t) = ["count", "method"])
  ∧ (∀ s : Scope, jsonKeys (encodeScope s) = ["date", "domain", "type"])
  ∧ decodeScope (Json.obj [("date", .str "d"), ("domain", .str "mvSequencing"),
      ("type", .str "permit")]) = .ok ⟨"d", .MvSequencing, .Permit⟩ :=
  ⟨fun _ => rfl, fun _ => rfl, fun _ => rfl, fun _ => rfl, fun _ => rfl, rfl⟩

/-- C7 counterexample: `SequencingLayout.PairedEnd` is spelled `paired-end`
on the wire, not the lowercase-with-underscore rendering of its symbolic
name. -/
theorem C7_counterexample :
    SequencingLayout.toWire .PairedEnd = "paired-end"
  ∧ SequencingLayout.toWire .PairedEnd ≠
      snakeCaseRender (SequencingLayout.symbolicName .PairedEnd) := by
  exact ⟨rfl, by decide⟩

/-- C7 (amended): of the enums outside the notable list, all use the
lowercase-with-underscore rendering of their symbolic names except
`SequencingLayout` (lowercase-with-hyphen), `ReadOrder` (verbatim `R1`, `R2`)
and `CoverageType` (uppercase codes). -/
theorem C7_default_spellings :
    (∀ v : Gender, Gender.toWire v = snakeCaseRender (Gender.symbolicName v))
  ∧ (∀ v : FragmentationMethod,
        FragmentationMethod.toWire v = snakeCaseRender (FragmentationMethod.symbolicName v))
  ∧ (∀ v : LibraryType, LibraryType.toWire v = snakeCaseRender (LibraryType.symbolicName v))
  ∧ (∀ v : ChecksumType, ChecksumType.toWire v = snakeCaseRender (ChecksumType.symbolicName v))
  ∧ (∀ v : FileType, FileType.toWire v = snakeCaseRender (FileType.symbolicName v))
  ∧ (∀ v : SequenceSubtype,
        SequenceSubtype.toWire v = snakeCaseRender (SequenceSubtype.symbolicName v))
  ∧ (∀ v : SequenceType, SequenceType.toWire v = snakeCaseRender (SequenceType.symbolicName v))
  ∧ (∀ v : Method, Method.toWire v = snakeCaseRender (Method.symbolicName v))
  ∧ (∀ v : Type', Type'.toWire v = snakeCaseRender (Type'.symbolicName v))
  ∧ (∀ v : Relation, Relation.toWire v = snakeCaseRender (Relation.symbolicName v))
  ∧ (∀ v : DiseaseType, DiseaseType.toWire v = snakeCaseRender (DiseaseType.symbolicName v))
  ∧ (∀ v : GenomicStudyType,
        GenomicStudyType.toWire v = snakeCaseRender (GenomicStudyType.symbolicName v))
  ∧ (∀ v : SubmissionType,
        SubmissionType.toWire v = snakeCaseRender (SubmissionType.symbolicName v))
  ∧ (∀ v : SequencingLayout,
        SequencingLayout.toWire v = kebabCaseRender (SequencingLayout.symbolicName v))
  ∧ (∀ v : ReadOrder, ReadOrder.toWire v = ReadOrder.symbolicName v)
  ∧ (∀ v : CoverageType, CoverageType.toWire v = upperCaseRender (CoverageType.symbolicName v)) := by
  refine ⟨?_, ?_, ?_, ?_, ?_, ?_, ?_, ?_, ?_, ?_, ?_, ?_, ?_, ?_, ?_, ?_⟩ <;>
    intro v <;> cases v <;> rfl

/-- C8: the wire spellings of `EnrichmentKitManufacturer` are exactly the
seven mixed-case strings, in an exhaustive bidirectional mapping with the
seven variants; casing variants fail. -/
theorem C8_ekm_exact_spellings :
    (∀ v, EnrichmentKitManufacturer.fromWire (EnrichmentKitManufacturer.toWire v) = some v)
  ∧ (∀ v, EnrichmentKitManufacturer.toWire v ∈
        ["Agilent", "Illumina", "NEB", "none", "other", "Twist", "unknown"])
  ∧ (∀ s, (EnrichmentKitManufacturer.fromWire s).isSome = true ↔
        s ∈ ["Agilent", "Illumina", "NEB", "none", "other", "Twist", "unknown"])
  ∧ EnrichmentKitManufacturer.fromWire "agilent" = none
  ∧ EnrichmentKitManufacturer.fromWire "twist" = none
  ∧ EnrichmentKitManufacturer.fromWire "neb" = none := by
  refine ⟨fun v => by cases v <;> rfl,
    fun v => by cases v <;> simp [EnrichmentKitManufacturer.toWire], ?_, rfl, rfl, rfl⟩
  intro s
  simp only [EnrichmentKitManufacturer.fromWire]
  split_ifs <;> simp_all

/-- C9: `Metadata::from_str` is total — on every input string it returns
either a decoded record or a `SerdeError`; malformed inputs yield errors. -/
theorem C9_from_str_total :
    (∀ value : String, (∃ m, Metadata.from_str value = .ok m)
        ∨ (∃ e, Metadata.from_str value = .error e))
  ∧ (∃ e, Metadata.from_str "" = .error e)
  ∧ (∃ e, Metadata.from_str "not json" = .error e)
  ∧ (∃ e, Metadata.from_str "][" = .error e) := by
  refine ⟨fun v => ?_, ⟨_, rfl⟩, ⟨_, rfl⟩, ⟨_, rfl⟩⟩
  cases h : Metadata.from_str v with
  | ok m => exact .inl ⟨m, rfl⟩
  | error e => exact .inr ⟨e, rfl⟩

/-- C10: empty `donors`, `researchConsents` and `mvConsent.scope` arrays (in
particular, no `mvSequencing` permit anywhere) decode successfully. -/
theorem C10_empty_sequences_decode :
    (∃ m, decodeMetadata emptyDonorsDoc = .ok m ∧ m.donors = [])
  ∧ (∃ m d, decodeMetadata emptyArraysDoc = .ok m ∧ m.donors = [d]
        ∧ d.research_consents = [] ∧ d.mv_consent.scope = [] ∧ d.lab_data = []) := by
  exact ⟨⟨_, rfl, rfl⟩, ⟨_, _, rfl, rfl, rfl, rfl, rfl⟩⟩


theorem hexVal_hexDigit (v : Nat) (h : v < 16) : hexVal? (hexDigitChar v) = some v := by
  interval_cases v <;> decide

theorem psc_quote (X : List Char) : parseStringChars ('"' :: X) = some ([], X) := by
  conv_lhs => rw [parseStringChars.eq_def]
  rfl

theorem psc_escQuote (X : List Char) :
    parseStringChars ('\\' :: '"' :: X) =
      (parseStringChars X).bind (fun p => some ('"' :: p.1, p.2)) := by
  conv_lhs => rw [parseStringChars.eq_def]
  rfl

theorem psc_escBack (X : List Char) :
    parseStringChars ('\\' :: '\\' :: X) =
      (parseStringChars X).bind (fun p => some ('\\' :: p.1, p.2)) := by
  conv_lhs => rw [parseStringChars.eq_def]
  rfl

theorem psc_escU (h1 h2 h3 h4 : Char) (v1 v2 v3 v4 : Nat) (X : List Char)
    (e1 : hexVal? h1 = some v1) (e2 : hexVal? h2 = some v2)
    (e3 : hexVal? h3 = some v3) (e4 : hexVal? h4 = some v4) :
    parseStringChars ('\\' :: 'u' :: h1 :: h2 :: h3 :: h4 :: X) =
      (parseStringChars X).bind
        (fun p => some (Char.ofNat (4096 * v1 + 256 * v2 + 16 * v3 + v4) :: p.1, p.2)) := by
  conv_lhs => rw [parseStringChars.eq_def]
  simp only [if_neg (by decide : ¬ ('\\' = '"')), if_pos (rfl : '\\' = '\\'),
    if_pos (rfl : 'u' = 'u'), ite_true, e1, e2, e3, e4, obind_some]
  rfl

theorem psc_other (c : Char) (X : List Char) (hq : ¬ c = '"') (hb : ¬ c = '\\') :
    parseStringChars (c :: X) =
      (parseStringChars X).bind (fun p => some (c :: p.1, p.2)) := by
  conv_lhs => rw [parseStringChars.eq_def]
  simp only [if_neg hq, if_neg hb]
  rfl

theorem parse_print_string (cs : List Char) :
    ∀ X : List Char, parseStringChars (printStringBody cs ++ '"' :: X) = some (cs, X) := by
  induction cs with
  | nil => intro X; simpa using psc_quote X
  | cons c cs ih =>
      intro X
      by_cases hq : c = '"'
      · subst hq
        rw [show printStringBody ('"' :: cs) = '\\' :: '"' :: printStringBody cs from rfl]
        simp only [List.cons_append]
        rw [psc_escQuote, ih X]
        rfl
      · by_cases hb : c = '\\'
        · subst hb
          rw [show printStringBody ('\\' :: cs) = '\\' :: '\\' :: printStringBody cs from rfl]
          simp only [List.cons_append]
          rw [psc_escBack, ih X]
          rfl
        · by_cases hc : c.toNat < 32
          · rw [show printStringBody (c :: cs) =
                '\\' :: 'u' :: '0' :: '0' :: hexDigitChar (c.toNat / 16) ::
                  hexDigitChar (c.toNat % 16) :: printStringBody cs from by
              simp only [printStringBody, escChar, if_neg hq, if_neg hb, if_pos hc,
                List.cons_append, List.nil_append]]
            simp only [List.cons_append]
            rw [psc_escU '0' '0' (hexDigitChar (c.toNat / 16)) (hexDigitChar (c.toNat % 16))
              0 0 (c.toNat / 16) (c.toNat % 16) _ (by decide) (by decide)
              (hexVal_hexDigit _ (by omega))
              (hexVal_hexDigit _ (Nat.mod_lt _ (by norm_num))), ih X]
            have harith : 4096 * 0 + 256 * 0 + 16 * (c.toNat / 16) + c.toNat % 16 = c.toNat := by
              omega
            rw [show ((some (cs, X)).bind fun p =>
                some (Char.ofNat (4096 * 0 + 256 * 0 + 16 * (c.toNat / 16) + c.toNat % 16)
                  :: p.1, p.2)) =
                some (Char.ofNat (4096 * 0 + 256 * 0 + 16 * (c.toNat / 16) + c.toNat % 16)
                  :: cs, X) from rfl, harith, Char.ofNat_toNat]
          · rw [show printStringBody (c :: cs) = c :: printStringBody cs from by
              simp only [printStringBody, escChar, if_neg hq, if_neg hb, if_neg hc,
                List.cons_append, List.nil_append]]
            simp only [List.cons_append]
            rw [psc_other c _ hq hb, ih X]
            rfl

theorem skipWs_cons (c : Char) (X : List Char)
    (h : ¬ (c = ' ' ∨ c = '\n' ∨ c = '\t' ∨ c = '\r')) : skipWs (c :: X) = c :: X := by
  rw [skipWs.eq_def]
  simp only [if_neg h]

theorem pv_null (fuel : Nat) (rest : List Char) :
    parseValue (fuel + 1) ('n' :: 'u' :: 'l' :: 'l' :: rest) = some (.null, rest) := by
  conv_lhs => rw [parseValue.eq_def]
  rfl

theorem pv_true (fuel : Nat) (rest : List Char) :
    parseValue (fuel + 1) ('t' :: 'r' :: 'u' :: 'e' :: rest) = some (.bool true, rest) := by
  conv_lhs => rw [parseValue.eq_def]
  rfl

theorem pv_false (fuel : Nat) (rest : List Char) :
    parseValue (fuel + 1) ('f' :: 'a' :: 'l' :: 's' :: 'e' :: rest) =
      some (.bool false, rest) := by
  conv_lhs => rw [parseValue.eq_def]
  rfl

theorem pv_str (fuel : Nat) (Y : List Char) :
    parseValue (fuel + 1) ('"' :: Y) =
      (parseStringChars Y).bind (fun p => some (.str (String.mk p.1), p.2)) := by
  conv_lhs => rw [parseValue.eq_def]
  rfl

theorem pv_arr (fuel : Nat) (Y : List Char) :
    parseValue (fuel + 1) ('[' :: Y) =
      (if (skipWs Y).head? = some ']' then some (.arr [], (skipWs Y).tail)
       else (parseItems fuel (skipWs Y)).bind (fun p => some (.arr p.1, p.2))) := by
  conv_lhs => rw [parseValue.eq_def]
  rfl

theorem pv_obj (fuel : Nat) (Y : List Char) :
    parseValue (fuel + 1) ('\x7b' :: Y) =
      (if (skipWs Y).head? = some '\x7d' then some (.obj [], (skipWs Y).tail)
       else (parseMembers fuel (skipWs Y)).bind (fun p => some (.obj p.1, p.2))) := by
  conv_lhs => rw [parseValue.eq_def]
  rfl

theorem pv_num (fuel : Nat) (c : Char) (Y : List Char)
    (hws : ¬ (c = ' ' ∨ c = '\n' ∨ c = '\t' ∨ c = '\r'))
    (hn : ¬ c = 'n') (ht : ¬ c = 't') (hf : ¬ c = 'f') (hq : ¬ c = '"')
    (hbr : ¬ c = '[') (hbc : ¬ c = '\x7b') :
    parseValue (fuel + 1) (c :: Y) =
      (parseNumber (c :: Y)).bind (fun p => some (.num p.1, p.2)) := by
  conv_lhs => rw [parseValue.eq_def]
  simp only [skipWs_cons c Y hws]
  simp only [if_neg hn, if_neg ht, if_neg hf, if_neg hq, if_neg hbr, if_neg hbc]
  rfl

theorem pi_step (fuel : Nat) (cs : List Char) :
    parseItems (fuel + 1) cs =
      (parseValue fuel cs).bind (fun p =>
        if (skipWs p.2).head? = some ',' then
          (parseItems fuel (skipWs p.2).tail).bind (fun q => some (p.1 :: q.1, q.2))
        else if (skipWs p.2).head? = some ']' then some ([p.1], (skipWs p.2).tail)
        else none) := by
  conv_lhs => rw [parseItems.eq_def]
  rfl

theorem pm_step (fuel : Nat) (Y : List Char) :
    parseMembers (fuel + 1) ('"' :: Y) =
      (parseStringChars Y).bind (fun p =>
        if (skipWs p.2).head? = some ':' then
          (parseValue fuel (skipWs p.2).tail).bind (fun v =>
            if (skipWs v.2).head? = some ',' then
              (parseMembers fuel (skipWs v.2).tail).bind
                (fun q => some ((String.mk p.1, v.1) :: q.1, q.2))
            else if (skipWs v.2).head? = some '\x7d' then
              some ([(String.mk p.1, v.1)], (skipWs v.2).tail)
            else none)
        else none) := by
  conv_lhs => rw [parseMembers.eq_def]
  rfl

theorem osomeBind (a : α) (f : α → Option β) : (some a).bind f = f a := rfl

theorem jneed_pos (j : Json) : 1 ≤ jneed j := by
  cases j <;> simp only [jneed] <;> omega

theorem jneedItems_pos (xs : List Json) : 1 ≤ jneedItems xs := by
  cases xs <;> simp only [jneedItems] <;> omega

theorem jneedMembers_pos (fs : List (String × Json)) : 1 ≤ jneedMembers fs := by
  cases fs <;> simp only [jneedMembers] <;> omega

theorem pv_num_print (fuel : Nat) (q : Rat) (hq : 10 ^ q.den % q.den = 0)
    (rest : List Char) (hrest : noDigitB rest = true) :
    parseValue (fuel + 1) (printNum q ++ rest) = some (.num q, rest) := by
  by_cases hneg : q.num < 0
  · have hsh : printNum q ++ rest =
        '-' :: ((natDigits (decMant q).natAbs ++ 'e' :: '-' :: natDigits (decExp q)) ++ rest) := by
      simp only [printNum, if_pos hneg, List.cons_append, List.nil_append]
    rw [hsh,
      pv_num fuel '-' _ (by decide) (by decide) (by decide) (by decide) (by decide) (by decide)
        (by decide),
      ← hsh, parseNumber_print q hq rest hrest]
    rfl
  · obtain ⟨d, ds, hds⟩ := List.exists_cons_of_ne_nil (natDigits_spec (decMant q).natAbs).2.2
    have hd : d.isDigit = true :=
      (natDigits_spec (decMant q).natAbs).1 d (by rw [hds]; exact List.mem_cons_self _ _)
    obtain ⟨h1, h2, h3, h4, h5, h6, h7, h8, h9, h10⟩ := isDigit_not_special hd
    have hwsd : ¬ (d = ' ' ∨ d = '\n' ∨ d = '\t' ∨ d = '\r') := by
      simp [h1, h2, h3, h4]
    have hsh : printNum q ++ rest =
        d :: ((ds ++ 'e' :: '-' :: natDigits (decExp q)) ++ rest) := by
      simp only [printNum, if_neg hneg, List.nil_append, hds, List.cons_append]
    rw [hsh, pv_num fuel d _ hwsd h5 h6 h7 h8 h9 h10, ← hsh,
      parseNumber_print q hq rest hrest]
    rfl

theorem printJson_head (j : Json) : ∃ c X, printJson j = c :: X ∧
    ¬ (c = ' ' ∨ c = '\n' ∨ c = '\t' ∨ c = '\r') ∧ c ≠ ']' := by
  cases j with
  | null => exact ⟨'n', _, rfl, by decide, by decide⟩
  | bool b => cases b
              · exact ⟨'f', _, rfl, by decide, by decide⟩
              · exact ⟨'t', _, rfl, by decide, by decide⟩
  | num q =>
      by_cases hneg : q.num < 0
      · refine ⟨'-', natDigits (decMant q).natAbs ++ 'e' :: '-' :: natDigits (decExp q),
          ?_, by decide, by decide⟩
        simp only [printJson, printNum, if_pos hneg, List.cons_append, List.nil_append]
      · obtain ⟨d, ds, hds⟩ :=
          List.exists_cons_of_ne_nil (natDigits_spec (decMant q).natAbs).2.2
        have hd : d.isDigit = true :=
          (natDigits_spec (decMant q).natAbs).1 d (by rw [hds]; exact List.mem_cons_self _ _)
        obtain ⟨h1, h2, h3, h4, _, _, _, _, _, _⟩ := isDigit_not_special hd
        refine ⟨d, ds ++ 'e' :: '-' :: natDigits (decExp q),
          ?_, by simp [h1, h2, h3, h4], ?_⟩
        · simp only [printJson, printNum, if_neg hneg, List.nil_append, hds, List.cons_append]
        · intro he; subst he; simp at hd
  | str s => exact ⟨'"', _, rfl, by decide, by decide⟩
  | arr xs => cases xs
              · exact ⟨'[', _, rfl, by decide, by decide⟩
              · exact ⟨'[', _, rfl, by decide, by decide⟩
  | obj fs => cases fs
              · exact ⟨'\x7b', _, rfl, by decide, by decide⟩
              · exact ⟨'\x7b', _, rfl, by decide, by decide⟩

theorem skipWs_printJson (j : Json) (X : List Char) :
    skipWs (printJson j ++ X) = printJson j ++ X := by
  obtain ⟨c, Y, hj, hws, _⟩ := printJson_head j
  rw [hj, List.cons_append, skipWs_cons _ _ hws]

theorem printJson_head_ne_rb (j : Json) (X : List Char) :
    ¬ ((printJson j ++ X).head? = some ']') := by
  obtain ⟨c, Y, hj, _, hne⟩ := printJson_head j
  rw [hj, List.cons_append]
  simp [hne]

theorem skipWs_printKey (k : String) (X : List Char) :
    skipWs (printKey k ++ X) = printKey k ++ X := by
  rw [show printKey k ++ X = '"' :: ((printStringBody k.data ++ ['"', ':']) ++ X) from rfl]
  exact skipWs_cons _ _ (by decide)

theorem printKey_head_ne_rb (k : String) (X : List Char) :
    ¬ ((printKey k ++ X).head? = some '\x7d') := by
  rw [show printKey k ++ X = '"' :: ((printStringBody k.data ++ ['"', ':']) ++ X) from rfl]
  simp

theorem parse_print_all : ∀ fuel : Nat,
    (∀ j rest, jsonPrintable j = true → jneed j ≤ fuel → noDigitB rest = true →
      parseValue fuel (printJson j ++ rest) = some (j, rest)) ∧
    (∀ x xs rest, jsonPrintable x = true → jsonPrintableList xs = true →
      1 + jneed x + jneedItems xs ≤ fuel →
      parseItems fuel (printJson x ++ (printItems xs ++ ']' :: rest)) = some (x :: xs, rest)) ∧
    (∀ (k : String) (v : Json) fs rest, jsonPrintable v = true →
      jsonPrintableMembers fs = true → 1 + jneed v + jneedMembers fs ≤ fuel →
      parseMembers fuel (printKey k ++ (printJson v ++ (printMembers fs ++ '\x7d' :: rest))) =
        some ((k, v) :: fs, rest)) := by
  intro fuel
  induction fuel with
  | zero =>
      refine ⟨?_, ?_, ?_⟩
      · intro j rest _ hfe _
        have := jneed_pos j
        omega
      · intro x xs rest _ _ hfe
        omega
      · intro k v fs rest _ _ hfe
        omega
  | succ fuel ih =>
      obtain ⟨ihv, ihi, ihm⟩ := ih
      refine ⟨?_, ?_, ?_⟩
      · intro j rest hj hfe hrest
        cases j with
        | null =>
            rw [show printJson .null ++ rest = 'n' :: 'u' :: 'l' :: 'l' :: rest from rfl]
            exact pv_null fuel rest
        | bool b =>
            cases b
            · rw [show printJson (.bool false) ++ rest =
                  'f' :: 'a' :: 'l' :: 's' :: 'e' :: rest from rfl]
              exact pv_false fuel rest
            · rw [show printJson (.bool true) ++ rest =
                  't' :: 'r' :: 'u' :: 'e' :: rest from rfl]
              exact pv_true fuel rest
        | num q =>
            have hq0 : (10 ^ q.den % q.den == 0) = true := hj
            have hq : 10 ^ q.den % q.den = 0 := by simpa using hq0
            rw [show printJson (.num q) = printNum q from rfl]
            exact pv_num_print fuel q hq rest hrest
        | str s =>
            have hsh : printJson (.str s) ++ rest =
                '"' :: (printStringBody s.data ++ '"' :: rest) := by
              rw [show printJson (.str s) = '"' :: (printStringBody s.data ++ ['"']) from rfl,
                List.cons_append, List.append_assoc]
              rfl
            rw [hsh, pv_str, parse_print_string s.data rest]
            rfl
        | arr xs =>
            cases xs with
            | nil =>
                rw [show printJson (.arr []) ++ rest = '[' :: ']' :: rest from rfl, pv_arr,
                  skipWs_cons ']' rest (by decide)]
                rfl
            | cons x xs =>
                have hx : jsonPrintable x = true ∧ jsonPrintableList xs = true := by
                  have h : (jsonPrintable x && jsonPrintableList xs) = true := hj
                  simpa only [Bool.and_eq_true] using h
                have hfe' : 1 + (1 + jneed x + jneedItems xs) ≤ fuel + 1 := by
                  have : jneed (.arr (x :: xs)) = 1 + (1 + jneed x + jneedItems xs) := rfl
                  omega
                have hsh : printJson (.arr (x :: xs)) ++ rest =
                    '[' :: (printJson x ++ (printItems xs ++ ']' :: rest)) := by
                  rw [show printJson (.arr (x :: xs)) =
                      '[' :: (printJson x ++ printItems xs ++ [']']) from rfl,
                    List.cons_append, List.append_assoc, List.append_assoc]
                  rfl
                rw [hsh, pv_arr, skipWs_printJson x _,
                  if_neg (printJson_head_ne_rb x _),
                  ihi x xs rest hx.1 hx.2 (by omega)]
                rfl
        | obj fs =>
            cases fs with
            | nil =>
                rw [show printJson (.obj []) ++ rest = '\x7b' :: '\x7d' :: rest from rfl, pv_obj,
                  skipWs_cons '\x7d' rest (by decide)]
                rfl
            | cons f fs =>
                have hf : jsonPrintable f.2 = true ∧ jsonPrintableMembers fs = true := by
                  have h : (jsonPrintable f.2 && jsonPrintableMembers fs) = true := hj
                  simpa only [Bool.and_eq_true] using h
                have hfe' : 1 + (1 + jneed f.2 + jneedMembers fs) ≤ fuel + 1 := by
                  have : jneed (.obj (f :: fs)) = 1 + (1 + jneed f.2 + jneedMembers fs) := rfl
                  omega
                have hsh : printJson (.obj (f :: fs)) ++ rest =
                    '\x7b' :: (printKey f.1 ++ (printJson f.2 ++
                      (printMembers fs ++ '\x7d' :: rest))) := by
                  rw [show printJson (.obj (f :: fs)) =
                      '\x7b' :: (printKey f.1 ++ printJson f.2 ++ printMembers fs ++ ['\x7d'])
                      from rfl,
                    List.cons_append, List.append_assoc, List.append_assoc, List.append_assoc]
                  rfl
                rw [hsh, pv_obj, skipWs_printKey f.1 _,
                  if_neg (printKey_head_ne_rb f.1 _),
                  ihm f.1 f.2 fs rest hf.1 hf.2 (by omega)]
                rfl
      · intro x xs rest hx hxs hfe
        cases xs with
        | nil =>
            simp only [printItems, List.nil_append]
            have hpi := jneedItems_pos ([] : List Json)
            rw [pi_step, ihv x (']' :: rest) hx (by omega) rfl, osomeBind,
              skipWs_cons ']' rest (by decide)]
            rfl
        | cons y ys =>
            have hy : jsonPrintable y = true ∧ jsonPrintableList ys = true := by
              have h : (jsonPrintable y && jsonPrintableList ys) = true := hxs
              simpa only [Bool.and_eq_true] using h
            have hfe' : 1 + jneed x + (1 + jneed y + jneedItems ys) ≤ fuel + 1 := by
              have : jneedItems (y :: ys) = 1 + jneed y + jneedItems ys := rfl
              omega
            have hpx := jneed_pos x
            simp only [printItems, List.cons_append, List.append_assoc]
            rw [pi_step,
              ihv x (',' :: (printJson y ++ (printItems ys ++ ']' :: rest))) hx (by omega) rfl,
              osomeBind, skipWs_cons ',' _ (by decide),
              if_pos (show ((',' :: (printJson y ++ (printItems ys ++ ']' :: rest))).head? =
                some ',') from rfl),
              List.tail_cons, ihi y ys rest hy.1 hy.2 (by omega)]
            rfl
      · intro k v fs rest hv hfs hfe
        cases fs with
        | nil =>
            have hpm := jneedMembers_pos ([] : List (String × Json))
            simp only [printMembers, List.nil_append]
            have hsh : printKey k ++ (printJson v ++ '\x7d' :: rest) =
                '"' :: (printStringBody k.data ++ '"' ::
                  (':' :: (printJson v ++ '\x7d' :: rest))) := by
              rw [show printKey k ++ (printJson v ++ '\x7d' :: rest) =
                  '"' :: ((printStringBody k.data ++ ['"', ':']) ++
                    (printJson v ++ '\x7d' :: rest)) from rfl,
                List.append_assoc]
              rfl
            rw [hsh, pm_step, parse_print_string k.data _, osomeBind,
              skipWs_cons ':' _ (by decide),
              if_pos (show ((':' :: (printJson v ++ '\x7d' :: rest)).head? = some ':') from rfl),
              List.tail_cons, ihv v ('\x7d' :: rest) hv (by omega) rfl, osomeBind,
              skipWs_cons '\x7d' rest (by decide),
              if_neg (show ¬ (('\x7d' :: rest).head? = some ',') from by simp)]
            rfl
        | cons g gs =>
            have hg : jsonPrintable g.2 = true ∧ jsonPrintableMembers gs = true := by
              have h : (jsonPrintable g.2 && jsonPrintableMembers gs) = true := hfs
              simpa only [Bool.and_eq_true] using h
            have hfe' : 1 + jneed v + (1 + jneed g.2 + jneedMembers gs) ≤ fuel + 1 := by
              have : jneedMembers (g :: gs) = 1 + jneed g.2 + jneedMembers gs := rfl
              omega
            have hpv := jneed_pos v
            simp only [printMembers, List.cons_append, List.append_assoc]
            have hsh : printKey k ++ (printJson v ++ ',' ::
                (printKey g.1 ++ (printJson g.2 ++ (printMembers gs ++ '\x7d' :: rest)))) =
                '"' :: (printStringBody k.data ++ '"' :: (':' :: (printJson v ++ ',' ::
                  (printKey g.1 ++ (printJson g.2 ++ (printMembers gs ++ '\x7d' :: rest)))))) := by
              rw [show printKey k ++ (printJson v ++ ',' ::
                  (printKey g.1 ++ (printJson g.2 ++ (printMembers gs ++ '\x7d' :: rest)))) =
                  '"' :: ((printStringBody k.data ++ ['"', ':']) ++ (printJson v ++ ',' ::
                    (printKey g.1 ++ (printJson g.2 ++ (printMembers gs ++ '\x7d' :: rest)))))
                  from rfl,
                List.append_assoc]
              rfl
            rw [hsh, pm_step, parse_print_string k.data _, osomeBind,
              skipWs_cons ':' _ (by decide),
              if_pos (show ((':' :: (printJson v ++ ',' :: (printKey g.1 ++ (printJson g.2 ++
                (printMembers gs ++ '\x7d' :: rest))))).head? = some ':') from rfl),
              List.tail_cons,
              ihv v (',' :: (printKey g.1 ++ (printJson g.2 ++
                (printMembers gs ++ '\x7d' :: rest)))) hv (by omega) rfl,
              osomeBind, skipWs_cons ',' _ (by decide),
              if_pos (show ((',' :: (printKey g.1 ++ (printJson g.2 ++
                (printMembers gs ++ '\x7d' :: rest)))).head? = some ',') from rfl),
              List.tail_cons, ihm g.1 g.2 gs rest hg.1 hg.2 (by omega)]
            rfl

mutual

theorem jneed_le (j : Json) : jneed j ≤ 2 * (printJson j).length := by
  cases j with
  | null => simp [jneed, printJson]
  | bool b => cases b <;> simp [jneed, printJson]
  | num q =>
      have := (natDigits_spec (decMant q).natAbs).2.2
      have hlen : 1 ≤ (printJson (.num q)).length := by
        obtain ⟨c, X, hj, _, _⟩ := printJson_head (.num q)
        rw [hj]
        simp
      have : jneed (.num q) = 1 := rfl
      omega
  | str s =>
      have : jneed (.str s) = 1 := rfl
      have hlen : 1 ≤ (printJson (.str s)).length := by
        rw [show printJson (.str s) = '"' :: (printStringBody s.data ++ ['"']) from rfl]
        simp
      omega
  | arr xs =>
      cases xs with
      | nil => simp [jneed, jneedItems, printJson]
      | cons x xs =>
          have hx := jneed_le x
          have hxs := jneedItems_le xs
          have h1 : jneed (.arr (x :: xs)) = 1 + (1 + jneed x + jneedItems xs) := rfl
          have h2 : (printJson (.arr (x :: xs))).length =
              1 + ((printJson x).length + ((printItems xs).length + 1)) := by
            rw [show printJson (.arr (x :: xs)) =
                '[' :: (printJson x ++ printItems xs ++ [']']) from rfl]
            simp
            omega
          omega
  | obj fs =>
      cases fs with
      | nil => simp [jneed, jneedMembers, printJson]
      | cons f fs =>
          have hv := jneed_le f.2
          have hfs := jneedMembers_le fs
          have h1 : jneed (.obj (f :: fs)) = 1 + (1 + jneed f.2 + jneedMembers fs) := rfl
          have h2 : (printJson (.obj (f :: fs))).length =
              1 + ((printKey f.1).length + ((printJson f.2).length +
                ((printMembers fs).length + 1))) := by
            rw [show printJson (.obj (f :: fs)) =
                '\x7b' :: (printKey f.1 ++ printJson f.2 ++ printMembers fs ++ ['\x7d'])
                from rfl]
            simp
            omega
          omega

theorem jneedItems_le (xs : List Json) : jneedItems xs ≤ 2 * (printItems xs).length + 2 := by
  cases xs with
  | nil => simp [jneedItems, printItems]
  | cons x xs =>
      have hx := jneed_le x
      have hxs := jneedItems_le xs
      have h1 : jneedItems (x :: xs) = 1 + jneed x + jneedItems xs := rfl
      have h2 : (printItems (x :: xs)).length =
          1 + ((printJson x).length + (printItems xs).length) := by
        rw [show printItems (x :: xs) = ',' :: (printJson x ++ printItems xs) from rfl]
        simp
        omega
      omega

theorem jneedMembers_le (fs : List (String × Json)) :
    jneedMembers fs ≤ 2 * (printMembers fs).length + 2 := by
  cases fs with
  | nil => simp [jneedMembers, printMembers]
  | cons f fs =>
      have hv := jneed_le f.2
      have hfs := jneedMembers_le fs
      have h1 : jneedMembers (f :: fs) = 1 + jneed f.2 + jneedMembers fs := rfl
      have h2 : (printMembers (f :: fs)).length =
          1 + ((printKey f.1).length + ((printJson f.2).length + (printMembers fs).length)) := by
        rw [show printMembers (f :: fs) =
            ',' :: (printKey f.1 ++ printJson f.2 ++ printMembers fs) from rfl]
        simp
        omega
      omega

end

theorem parseJson_print (j : Json) (hj : jsonPrintable j = true) :
    parseJsonText (String.mk (printJson j)) = some j := by
  have hfe : jneed j ≤ 2 * (String.mk (printJson j)).length + 4 := by
    have h1 := jneed_le j
    have h2 : (String.mk (printJson j)).length = (printJson j).length := rfl
    omega
  have hp := (parse_print_all (2 * (String.mk (printJson j)).length + 4)).1 j [] hj hfe rfl
  rw [List.append_nil] at hp
  unfold parseJsonText
  rw [show (String.mk (printJson j)).toList = printJson j from rfl, hp]
  rfl

theorem jp_null : jsonPrintable .null = true := rfl

theorem jp_bool (b : Bool) : jsonPrintable (.bool b) = true := rfl

theorem jp_str (s : String) : jsonPrintable (.str s) = true := rfl

theorem jp_arr (xs : List Json) : jsonPrintable (.arr xs) = jsonPrintableList xs := rfl

theorem jp_obj (fs : List (String × Json)) :
    jsonPrintable (.obj fs) = jsonPrintableMembers fs := rfl

theorem jpl_nil : jsonPrintableList [] = true := rfl

theorem jpl_cons (x : Json) (xs : List Json) :
    jsonPrintableList (x :: xs) = (jsonPrintable x && jsonPrintableList xs) := rfl

theorem jpm_nil : jsonPrintableMembers [] = true := rfl

theorem jpm_cons (f : String × Json) (fs : List (String × Json)) :
    jsonPrintableMembers (f :: fs) = (jsonPrintable f.2 && jsonPrintableMembers fs) := rfl

theorem jpm_append (a b : List (String × Json)) :
    jsonPrintableMembers (a ++ b) = (jsonPrintableMembers a && jsonPrintableMembers b) := by
  induction a with
  | nil => simp [jpm_nil]
  | cons f fs ih => simp [jpm_cons, ih, Bool.and_assoc]

theorem jp_encodeEnum (tw : α → String) (v : α) :
    jsonPrintable (encodeEnum tw v) = true := rfl

theorem jp_encodeI64 (n : Int) : jsonPrintable (encodeI64 n) = true := by
  show (10 ^ (intRat n).den % (intRat n).den == 0) = true
  simp [intRat]

theorem jp_encodeF64 (x : F64) (h : F64.fin x = true) :
    jsonPrintable (encodeF64 x) = true := by
  cases x <;> simp_all [F64.fin, encodeF64, jsonPrintable]

theorem jpm_optPair_map (k : String) (o : Option α) (g : α → Json)
    (h : ∀ a, jsonPrintable (g a) = true) :
    jsonPrintableMembers (optPair k (o.map g)) = true := by
  cases o <;> simp [optPair, jpm_cons, jpm_nil, h]

theorem jpl_map (g : α → Json) (xs : List α) (h : ∀ a ∈ xs, jsonPrintable (g a) = true) :
    jsonPrintableList (xs.map g) = true := by
  induction xs with
  | nil => rfl
  | cons x xs ih =>
      simp only [List.map_cons, jpl_cons, Bool.and_eq_true]
      exact ⟨h x (List.mem_cons_self _ _), ih fun a ha => h a (List.mem_cons_of_mem _ ha)⟩

theorem jpm_map (g : α → String × Json) (xs : List α)
    (h : ∀ a ∈ xs, jsonPrintable (g a).2 = true) :
    jsonPrintableMembers (xs.map g) = true := by
  induction xs with
  | nil => rfl
  | cons x xs ih =>
      simp only [List.map_cons, jpm_cons, Bool.and_eq_true]
      exact ⟨h x (List.mem_cons_self _ _), ih fun a ha => h a (List.mem_cons_of_mem _ ha)⟩

theorem jp_encodePercentBases (p : PercentBasesAboveQualityThreshold) (h : p.wf = true) :
    jsonPrintable (encodePercentBases p) = true := by
  simp only [PercentBasesAboveQualityThreshold.wf, Bool.and_eq_true] at h
  simp [encodePercentBases, jp_obj, jpm_cons, jpm_nil,
    jp_encodeF64 _ h.1, jp_encodeF64 _ h.2]

theorem jp_encodeCallerUsed (c : CallerUsed) : jsonPrintable (encodeCallerUsed c) = true := rfl

theorem jp_encodeTissueOntology (t : TissueOntology) :
    jsonPrintable (encodeTissueOntology t) = true := rfl

theorem jp_encodeTumorCellCount (t : TumorCellCount) (h : t.wf = true) :
    jsonPrintable (encodeTumorCellCount t) = true := by
  simp only [TumorCellCount.wf] at h
  simp [encodeTumorCellCount, jp_obj, jpm_cons, jpm_nil, jp_encodeEnum,
    jp_encodeF64 _ h]

theorem jp_encodeFile (f : File) (h : f.wf = true) :
    jsonPrintable (encodeFile f) = true := by
  simp only [File.wf] at h
  simp [encodeFile, jp_obj, jpm_append, jpm_cons, jpm_nil, jp_str, jp_encodeEnum,
    jp_encodeI64, jpm_optPair_map, jp_encodeF64 _ h]

theorem jp_encodeSequenceData (s : SequenceData) (h : s.wf = true) :
    jsonPrintable (encodeSequenceData s) = true := by
  simp only [SequenceData.wf, Bool.and_eq_true] at h
  obtain ⟨⟨⟨⟨h1, h2⟩, h3⟩, h4⟩, h5⟩ := h
  simp [encodeSequenceData, jp_obj, jpm_cons, jpm_nil, jp_arr, jp_str, jp_bool,
    jp_encodeEnum, jp_encodeF64 _ h1, jp_encodeF64 _ h2, jp_encodeF64 _ h3,
    jp_encodePercentBases _ h4,
    jpl_map encodeCallerUsed s.caller_used (fun a _ => jp_encodeCallerUsed a),
    jpl_map encodeFile s.files
      (fun a ha => jp_encodeFile a ((List.all_eq_true.mp h5) a ha))]

theorem jp_encodeLabDatum (l : LabDatum) (h : l.wf = true) :
    jsonPrintable (encodeLabDatum l) = true := by
  simp only [LabDatum.wf, Bool.and_eq_true] at h
  obtain ⟨hsd, htc⟩ := h
  have h1 : jsonPrintableMembers (optPair "sequenceData"
      (l.sequence_data.map encodeSequenceData)) = true := by
    cases hc : l.sequence_data with
    | none => rfl
    | some sd =>
        rw [hc] at hsd
        simp [optPair, jpm_cons, jpm_nil, jp_encodeSequenceData sd hsd]
  have h2 : jsonPrintableMembers (optPair "tumorCellCount"
      (l.tumor_cell_count.map fun ts => .arr (ts.map encodeTumorCellCount))) = true := by
    cases hc : l.tumor_cell_count with
    | none => rfl
    | some ts =>
        rw [hc] at htc
        simp [optPair, jpm_cons, jpm_nil, jp_arr,
          jpl_map encodeTumorCellCount ts
            (fun a ha => jp_encodeTumorCellCount a ((List.all_eq_true.mp htc) a ha))]
  simp [encodeLabDatum, jp_obj, jpm_append, jpm_cons, jpm_nil, jp_str, jp_encodeEnum,
    jp_encodeTissueOntology, h1, h2]

theorem jp_encodeScope (s : Scope) : jsonPrintable (encodeScope s) = true := rfl

theorem jp_encodeMvConsent (m : MvConsent) : jsonPrintable (encodeMvConsent m) = true := by
  simp [encodeMvConsent, jp_obj, jpm_append, jpm_cons, jpm_nil, jp_arr, jp_str,
    jpm_optPair_map, jpl_map encodeScope m.scope (fun a _ => jp_encodeScope a)]

theorem jp_encodeScopeVal (o : Option Json) (h : scopeValOk o = true) :
    jsonPrintable (encodeScopeVal o) = true := by
  cases o with
  | none => rfl
  | some j => cases j <;> simp_all [scopeValOk, encodeScopeVal]

theorem jp_encodeScopeMap (m : List (String × Option Json)) (h : scopeMapWf m = true) :
    jsonPrintable (encodeScopeMap m) = true := by
  simp only [scopeMapWf, Bool.and_eq_true] at h
  rw [encodeScopeMap, jp_obj]
  exact jpm_map _ m fun p hp =>
    jp_encodeScopeVal p.2 ((List.all_eq_true.mp h.2) p hp)

theorem jp_encodeResearchConsent (r : ResearchConsent) (h : r.wf = true) :
    jsonPrintable (encodeResearchConsent r) = true := by
  have h1 : jsonPrintableMembers (optPair "scope" (r.scope.map encodeScopeMap)) = true := by
    cases hc : r.scope with
    | none => rfl
    | some sm =>
        rw [ResearchConsent.wf, hc] at h
        simp [optPair, jpm_cons, jpm_nil, jp_encodeScopeMap sm h]
  simp [encodeResearchConsent, jp_obj, jpm_append, jpm_cons, jpm_nil, jp_str,
    jp_encodeEnum, jpm_optPair_map, h1]

theorem jp_encodeDonor (d : Donor) (h : d.wf = true) :
    jsonPrintable (encodeDonor d) = true := by
  simp only [Donor.wf, Bool.and_eq_true] at h
  simp [encodeDonor, jp_obj, jpm_cons, jpm_nil, jp_arr, jp_str, jp_encodeEnum,
    jp_encodeMvConsent,
    jpl_map encodeLabDatum d.lab_data
      (fun a ha => jp_encodeLabDatum a ((List.all_eq_true.mp h.1) a ha)),
    jpl_map encodeResearchConsent d.research_consents
      (fun a ha => jp_encodeResearchConsent a ((List.all_eq_true.mp h.2) a ha))]

theorem jp_encodeSubmission (s : Submission) : jsonPrintable (encodeSubmission s) = true := rfl

theorem jp_encodeMetadata (m : Metadata) (h : m.wf = true) :
    jsonPrintable (encodeMetadata m) = true := by
  simp only [Metadata.wf] at h
  simp [encodeMetadata, jp_obj, jpm_cons, jpm_nil, jp_arr, jp_encodeSubmission,
    jpl_map encodeDonor m.donors
      (fun a ha => jp_encodeDonor a ((List.all_eq_true.mp h) a ha))]

theorem text_round_trip (m : Metadata) (h : m.wf = true) :
    Metadata.from_str (Metadata.to_json_string m) = .ok m := by
  unfold Metadata.from_str Metadata.to_json_string
  rw [parseJson_print (encodeMetadata m) (jp_encodeMetadata m h)]
  simp only [rt_metadata m h]

/-- C1 counterexample: the textual round trip fails outside the canonical form —
a NaN coverage value is printed as `null`, which the decoder then rejects, and
an explicit `Some(null)` value stored in the open scope mapping is printed as
`null` and re-read as an absent value. -/
theorem C1_counterexample :
    Metadata.from_str (Metadata.to_json_string metadataNaN) ≠ .ok metadataNaN
  ∧ Metadata.from_str (Metadata.to_json_string metadataWrappedNull) ≠
      .ok metadataWrappedNull := by
  constructor
  · intro hcontra
    have h : isOkS (Metadata.from_str (Metadata.to_json_string metadataNaN)) = false := by
      unfold Metadata.from_str Metadata.to_json_string
      rw [parseJson_print (encodeMetadata metadataNaN) (by rfl)]
      rfl
    rw [hcontra] at h
    simp [isOkS] at h
  · intro hcontra
    have h1 : Metadata.from_str (Metadata.to_json_string metadataWrappedNull) =
        .ok metadataCollapsedNull := by
      unfold Metadata.from_str Metadata.to_json_string
      rw [parseJson_print (encodeMetadata metadataWrappedNull) (by rfl)]
      rfl
    rw [h1] at hcontra
    have h2 := congrArg firstScopeVal (Except.ok.inj hcontra)
    simp [firstScopeVal, metadataWrappedNull, metadataCollapsedNull] at h2

/-- C1 (amended): for every record in canonical form — all floating-point
fields finite and every open scope mapping with pairwise-distinct keys,
explicit nulls stored as absent values and decimal-representable numbers, the
only states a decoded record can be in — parsing the text printed by the
encoder yields `Ok` of the same record, field for field. -/
theorem C1_round_trip (m : Metadata) (h : m.wf = true) :
    Metadata.from_str (Metadata.to_json_string m) = .ok m :=
  text_round_trip m h

/-- C1 witness: the full example record — donors, lab data, sequence data,
files, consents and an open scope mapping — round-trips through the printed
text. -/
theorem C1_round_trip_witness :
    Metadata.wf exampleMetadata = true
  ∧ Metadata.from_str (Metadata.to_json_string exampleMetadata) = .ok exampleMetadata :=
  ⟨rfl, C1_round_trip exampleMetadata rfl⟩

end GRZ
